import Mathlib

/-!
# Verification of the duckwind utility-class CSS compiler core

Shallow embedding of the duckwind sources (`src/lib.rs`, `src/config_css.rs`,
`src/css_data_types.rs`).  Strings are modelled as `List Char`; Rust byte
indices coincide with character indices on the ASCII inputs exercised here
(noted where it matters).  `HashMap`/`HashSet` are modelled as association
lists with insert-overwrites / insert-if-absent semantics.

The utility-token lexer and token parser are modelled from the
specification: the `lexer.rs` / `parser.rs` files in the tree predate the
interface that `lib.rs` consumes (tuple result with a matched length,
multi-segment variant chains), so the current versions of those two modules
are not in the tree.  Definitions carrying a `Modelled from the spec:`
comment come from the specification text; everything else is translated
from the Rust sources.

chumsky semantics used throughout: `choice` commits to its first succeeding
alternative, `repeated` is greedy, and a top-level `.parse` succeeds only
when the whole input is consumed.
-/

/-- Strings as lists of characters. -/
abbrev Str := List Char

/-- Longest prefix of characters satisfying `p`, together with the rest. -/
def takeRun (p : Char → Bool) : Str → Str × Str
  | [] => ([], [])
  | c :: cs =>
    if p c then
      let r := takeRun p cs
      (c :: r.1, r.2)
    else ([], c :: cs)

/-- Index of the first character satisfying `p`. -/
def findIdxOpt (p : Char → Bool) (s : Str) : Option Nat :=
  s.findIdx? p

/-- Index of the last character satisfying `p` (Rust `rfind`). -/
def rfindIdxOpt (p : Char → Bool) (s : Str) : Option Nat :=
  match s.reverse.findIdx? p with
  | some k => some (s.length - 1 - k)
  | none => none

/-- Split at the first occurrence of `c` (Rust `split_once`): the
separator is dropped. -/
def splitOnce (c : Char) (s : Str) : Option (Str × Str) :=
  match s.findIdx? (fun d => d = c) with
  | some i => some (s.take i, s.drop (i + 1))
  | none => none

/-- Rust `char::is_ascii` (`c <= 0x7f`). -/
def isAsciiChar (c : Char) : Bool := c.toNat ≤ 127

/-- `is_valid_css_char` from `lib.rs`: ASCII digits and letters, `-`, `_`,
and every non-ASCII character. -/
def is_valid_css_char (c : Char) : Bool :=
  c.isDigit || (c.isUpper || c.isLower) || c = '-' || c = '_' || !isAsciiChar c

/-- `escape_string_for_css` from `lib.rs`: push a backslash before every
character that is not a valid CSS identifier character. -/
def escape_string_for_css : Str → Str
  | [] => []
  | c :: cs =>
    (if !is_valid_css_char c then '\\' :: [c] else [c]) ++ escape_string_for_css cs

/-- Decoder for the escape: a backslash is treated as an escape character
and the character after it is taken verbatim. -/
def unescapeCss : Str → Str
  | [] => []
  | c :: cs =>
    if c = '\\' then
      match cs with
      | [] => []
      | d :: ds => d :: unescapeCss ds
    else c :: unescapeCss cs

/-! ## The outer scan loop (`EmitEnv::parse_full_string`, lib.rs 102-117)

The text is modelled at the byte level (`List Nat`, each entry `< 256` in
real UTF-8, though nothing here needs that bound).  The combined effect of
the optional prefix match and `parse_tailwind_str` is abstracted as an
oracle giving, at each byte position, the optional `skip` value the `if
let` adds to the index; the loop body itself is translated literally. -/

/-- UTF-8 continuation byte (`0b10xxxxxx`): exactly these are not
character boundaries inside the text. -/
def isContByte (b : Nat) : Bool := 128 ≤ b % 256 && b % 256 < 192

/-- Rust `String::is_char_boundary` at index `i`: true at or past the end
of the text, and at any non-continuation byte. -/
def isCharBoundary (txt : List Nat) (i : Nat) : Bool :=
  match txt[i]? with
  | some b => !isContByte b
  | none => true

/-- The inner `while i < txt.len() && !txt.is_char_boundary(i) { i += 1 }`
loop: advance to the next char boundary. -/
def boundaryAdvance (txt : List Nat) (i : Nat) : Nat :=
  if h : i < txt.length ∧ isCharBoundary txt i = false then
    boundaryAdvance txt (i + 1)
  else i
termination_by txt.length - i
decreasing_by omega

/-- One iteration of the scan loop in `parse_full_string`: add the skip
returned by `parse_tailwind_str` when it succeeded, add the unconditional
`1`, then move to the next char boundary. -/
def scanStep (oracle : Nat → Option Nat) (txt : List Nat) (i : Nat) : Nat :=
  let i1 := match oracle i with
    | some skip => i + skip
    | none => i
  boundaryAdvance txt (i1 + 1)

/-- The scan loop itself, with explicit fuel: `none` means the fuel ran
out before the loop condition `i < txt.len()` failed. -/
def scanRun (oracle : Nat → Option Nat) (txt : List Nat) : Nat → Nat → Option Unit
  | fuel, i =>
    if i < txt.length then
      match fuel with
      | 0 => none
      | fuel' + 1 => scanRun oracle txt fuel' (scanStep oracle txt i)
    else some ()

/-! ## The CSS literal classifier (`css_data_types.rs`, module `css_literals`)

Recursive-descent port of `data_type_parser` and its sub-parsers.  Each
parser maps the input to `Option (result × rest)`; `choice` takes the
first succeeding alternative, runs are greedy, and a top-level parse
succeeds only on full consumption (chumsky `parse`). -/

/-- Rust `char::is_ascii_hexdigit`. -/
def isHexDigitChar (c : Char) : Bool :=
  c.isDigit || ('a' ≤ c && c ≤ 'f') || ('A' ≤ c && c ≤ 'F')

/-- Rust `char::is_ascii_whitespace`. -/
def isAsciiWs (c : Char) : Bool :=
  c = ' ' || c = '\t' || c = '\n' || c = '\r' || c.toNat = 12

/-- Consume the literal `lit` (chumsky `just`). -/
def pLit (lit : Str) (s : Str) : Option Str :=
  if lit.isPrefixOf s then some (s.drop lit.length) else none

/-- Greedy run of characters satisfying `p`, requiring at least one. -/
def runAtLeast1 (p : Char → Bool) (s : Str) : Option (Str × Str) :=
  let r := takeRun p s
  if r.1.isEmpty then none else some r

/-- First literal from `lits` that is a prefix of `s` (an ordered chumsky
`choice` of `just`s), together with the rest. -/
def pLitChoice (lits : List Str) (s : Str) : Option (Str × Str) :=
  match lits with
  | [] => none
  | l :: ls =>
    match pLit l s with
    | some rest => some (l, rest)
    | none => pLitChoice ls s

/-- The named colors of `color_parser`, in source order. -/
def namedColors : List Str :=
  ["black".toList, "silver".toList, "gray".toList, "white".toList,
   "maroon".toList, "red".toList, "purple".toList, "fuchsia".toList,
   "green".toList, "lime".toList, "olive".toList, "yellow".toList,
   "navy".toList, "blue".toList, "teal".toList, "aqua".toList]

/-- The functional color prefixes of `color_parser`, in source order
(including the source's `device-cymk` spelling). -/
def colorFuncs : List Str :=
  ["rgb".toList, "hsl".toList, "hwb".toList, "lab".toList, "lch".toList,
   "oklab".toList, "oklch".toList, "color".toList, "device-cymk".toList,
   "color-mix".toList, "contrast-color".toList, "light-dark".toList]

/-- The length unit suffixes of `length_parser`, in source order. -/
def lengthUnits : List Str :=
  ["cap".toList, "ch".toList, "em".toList, "ex".toList, "ic".toList,
   "lh".toList, "rcap".toList, "rch".toList, "rem".toList, "rex".toList,
   "ric".toList, "rlh".toList, "vh".toList, "vw".toList, "vmax".toList,
   "vmin".toList, "vb".toList, "vi".toList, "px".toList, "cm".toList,
   "mm".toList, "Q".toList, "in".toList, "pc".toList, "pt".toList]

/-- A parsed color (`Color` in `css_data_types.rs`); only the tag is used
by the matching engine, the payloads record the parsed pieces. -/
inductive ColorLit where
  | hexC (s : Str)
  | namedC (s : Str)
  | funcC (f : Str) (body : Str)

deriving DecidableEq

/-- A parsed absolute size (`AbsoluteSize`). -/
inductive AbsSize where
  | xxSmall | xSmall | small | medium | large | xLarge | xxLarge | xxxLarge

deriving DecidableEq

/-- A parsed angle (`Angle`). -/
inductive AngleLit where
  | deg (s : Str) | grad (s : Str) | rad (s : Str) | turn (s : Str)

deriving DecidableEq

/-- `CssLiteral` (the `CssDataType` enum, plus the `Other` fallback used
by `Utility::instantiate` when classification fails). -/
inductive CssLiteral where
  | length (num : Str) (unit : Str)
  | color (c : ColorLit)
  | ratioLit (a b : Str)
  | number (s : Str)
  | fr (s : Str)
  | integer (s : Str)
  | percentage (s : Str)
  | absoluteSize (a : AbsSize)
  | angle (a : AngleLit)
  | anyLit
  | position (s : Str)
  | other (s : Str)

deriving DecidableEq

/-- `length_parser`: signed decimal run, then a unit suffix. -/
def lengthP (s : Str) : Option ((Str × Str) × Str) :=
  match runAtLeast1 (fun c => c.isDigit || c = '.' || c = '-') s with
  | none => none
  | some (num, rest) =>
    match pLitChoice lengthUnits rest with
    | some (unit, rest2) => some ((num, unit), rest2)
    | none => none

/-- `percentage_parser`. -/
def percentageP (s : Str) : Option (Str × Str) :=
  match runAtLeast1 (fun c => c.isDigit || c = '.' || c = '-') s with
  | none => none
  | some (num, rest) =>
    match pLit "%".toList rest with
    | some rest2 => some (num, rest2)
    | none => none

/-- `ratio_parser`. -/
def ratioP (s : Str) : Option ((Str × Str) × Str) :=
  match runAtLeast1 (fun c => c.isDigit || c = '.') s with
  | none => none
  | some (a, rest) =>
    let rest := (takeRun (fun c => c = ' ') rest).2
    match pLit "/".toList rest with
    | none => none
    | some rest2 =>
      let rest2 := (takeRun (fun c => c = ' ') rest2).2
      match runAtLeast1 (fun c => c.isDigit || c = '.') rest2 with
      | some (b, rest3) => some ((a, b), rest3)
      | none => none

/-- `fr_parser`. -/
def frP (s : Str) : Option (Str × Str) :=
  match runAtLeast1 (fun c => c.isDigit || c = '.') s with
  | none => none
  | some (num, rest) =>
    match pLit "fr".toList rest with
    | some rest2 => some (num, rest2)
    | none => none

/-- `integer_parser`. -/
def integerP (s : Str) : Option (Str × Str) :=
  runAtLeast1 (fun c => c.isDigit || c = '-') s

/-- `number_parser` (the run must contain a dot). -/
def numberP (s : Str) : Option (Str × Str) :=
  match runAtLeast1 (fun c => c.isDigit || c = '-' || c = '.') s with
  | none => none
  | some (num, rest) => if num.contains '.' then some (num, rest) else none

/-- `angle_parser`. -/
def angleP (s : Str) : Option (AngleLit × Str) :=
  match runAtLeast1 (fun c => c.isDigit || c = '.') s with
  | none => none
  | some (num, rest) =>
    match pLitChoice ["deg".toList, "grad".toList, "rad".toList, "turn".toList] rest with
    | some (u, rest2) =>
      some (if u = "deg".toList then AngleLit.deg num
            else if u = "grad".toList then AngleLit.grad num
            else if u = "rad".toList then AngleLit.rad num
            else AngleLit.turn num, rest2)
    | none => none

/-- `absolute_size_parser`, with the source's alternative order. -/
def absSizeP (s : Str) : Option (AbsSize × Str) :=
  match pLitChoice ["xx-small".toList, "x-small".toList, "small".toList,
      "medium".toList, "large".toList, "x-large".toList, "xx-large".toList,
      "xxx-large".toList] s with
  | none => none
  | some (u, rest) =>
    some (if u = "xx-small".toList then AbsSize.xxSmall
          else if u = "x-small".toList then AbsSize.xSmall
          else if u = "small".toList then AbsSize.small
          else if u = "medium".toList then AbsSize.medium
          else if u = "large".toList then AbsSize.large
          else if u = "x-large".toList then AbsSize.xLarge
          else if u = "xx-large".toList then AbsSize.xxLarge
          else AbsSize.xxxLarge, rest)

/-- The body of a balanced parenthesized group, up to the matching `)`
(the loop of `nested_braces_parser` from `css_data_types.rs`); inner
groups keep their parentheses.  Fuel bounds the recursion; callers pass
the input length. -/
def nestedParensBody : Nat → Str → Str → Option (Str × Str)
  | 0, _, _ => none
  | fuel + 1, s, acc =>
    match s with
    | [] => none
    | ')' :: rest => some (acc, rest)
    | '(' :: rest =>
      match nestedParensBody fuel rest [] with
      | some (inner, rest2) =>
        nestedParensBody fuel rest2 (acc ++ '(' :: inner ++ [')'])
      | none => none
    | c :: rest => nestedParensBody fuel rest (acc ++ [c])

/-- `nested_braces_parser`: a balanced parenthesized group; returns the
content between the outer parentheses and the rest. -/
def nestedParensP (fuel : Nat) (s : Str) : Option (Str × Str) :=
  match s with
  | '(' :: rest => nestedParensBody fuel rest []
  | _ => none

/-- `color_parser`: 6-digit hex, a named color, or a functional color with
a balanced argument group. -/
def colorP (s : Str) : Option (ColorLit × Str) :=
  match pLit "#".toList s with
  | some rest =>
    let hexRun := takeRun isHexDigitChar rest
    if hexRun.1.length < 6 then none
    else some (ColorLit.hexC (hexRun.1.take 6), hexRun.1.drop 6 ++ hexRun.2)
  | none =>
    match pLitChoice namedColors s with
    | some (n, rest) => some (ColorLit.namedC n, rest)
    | none =>
      match pLitChoice colorFuncs s with
      | none => none
      | some (f, rest) =>
        match nestedParensP (rest.length + 1) rest with
        | some (body, rest2) => some (ColorLit.funcC f body, rest2)
        | none => none

/-- A single `<position>` token (`Position` in `css_data_types.rs`). -/
inductive PosTok where
  | left | right | top | bottom | center
  | len (num : Str) (unit : Str)
  | pct (s : Str)

deriving DecidableEq

/-- `single_position_parser`, with the source's alternative order. -/
def posSingleP (s : Str) : Option (PosTok × Str) :=
  match pLit "left".toList s with
  | some r => some (PosTok.left, r)
  | none =>
  match pLit "right".toList s with
  | some r => some (PosTok.right, r)
  | none =>
  match pLit "top".toList s with
  | some r => some (PosTok.top, r)
  | none =>
  match pLit "bottom".toList s with
  | some r => some (PosTok.bottom, r)
  | none =>
  match pLit "center".toList s with
  | some r => some (PosTok.center, r)
  | none =>
  match lengthP s with
  | some ((num, unit), r) => some (PosTok.len num unit, r)
  | none =>
  match percentageP s with
  | some (p, r) => some (PosTok.pct p, r)
  | none => none

/-- At least one ASCII whitespace character. -/
def ws1P (s : Str) : Option Str :=
  match runAtLeast1 isAsciiWs s with
  | some (_, rest) => some rest
  | none => none

def PosTok.isKeywordLR (t : PosTok) : Bool :=
  match t with | .left | .right => true | _ => false

def PosTok.isKeywordTB (t : PosTok) : Bool :=
  match t with | .top | .bottom => true | _ => false

def PosTok.isOffset (t : PosTok) : Bool :=
  match t with | .len .. | .pct .. => true | _ => false

/-- Two whitespace-separated position tokens. -/
def posPairP (s : Str) : Option ((PosTok × PosTok) × Str) :=
  match posSingleP s with
  | none => none
  | some (a, r1) =>
    match ws1P r1 with
    | none => none
    | some r2 =>
      match posSingleP r2 with
      | none => none
      | some (b, r3) => some ((a, b), r3)

/-- `position_parser`: the four alternatives, in source order. -/
def positionP (s : Str) : Option (List PosTok × Str) :=
  -- 1. four tokens with the side/offset filter
  match pos4 with
  | some r => some r
  | none =>
  match pos2kw with
  | some r => some r
  | none =>
  match pos2any with
  | some r => some r
  | none =>
  match posSingleP s with
  | some (a, r) => some ([a], r)
  | none => none
where
  pos4 : Option (List PosTok × Str) :=
    match posPairP s with
    | none => none
    | some ((a, b), r3) =>
      match ws1P r3 with
      | none => none
      | some r4 =>
        match posPairP r4 with
        | none => none
        | some ((c, d), r7) =>
          if (a.isKeywordLR && b.isOffset && c.isKeywordTB && d.isOffset) ||
             (c.isKeywordLR && b.isOffset && a.isKeywordTB && d.isOffset) then
            some ([a, b, c, d], r7)
          else none
  pos2kw : Option (List PosTok × Str) :=
    match posPairP s with
    | none => none
    | some ((a, b), r3) =>
      if ((a.isKeywordLR || a = PosTok.center) && (b.isKeywordTB || b = PosTok.center)) ||
         ((b.isKeywordLR || b = PosTok.center) && (a.isKeywordTB || a = PosTok.center)) then
        some ([a, b], r3)
      else none
  pos2any : Option (List PosTok × Str) :=
    match posPairP s with
    | none => none
    | some ((a, b), r3) =>
      if (a.isKeywordLR || a = PosTok.center || a.isOffset) &&
         (b.isKeywordTB || b = PosTok.center || b.isOffset) then
        some ([a, b], r3)
      else none

/-- `Length::to_css`: the number followed by the unit suffix. -/
def lengthToCss (num unit : Str) : Str := num ++ unit

/-- Rendering of a position token for `CssDataType::Position`. -/
def posTokCss (t : PosTok) : Str :=
  match t with
  | .top => "top".toList
  | .bottom => "bottom".toList
  | .left => "left".toList
  | .right => "right".toList
  | .center => "center".toList
  | .pct p => p ++ "%".toList
  | .len num unit => lengthToCss num unit

/-- `data_type_parser`: the top-level ordered choice. -/
def dataTypeChoice (s : Str) : Option (CssLiteral × Str) :=
  match positionP s with
  | some (toks, rest) =>
    some (match toks with
      | [PosTok.len num unit] => CssLiteral.length num unit
      | [PosTok.pct p] => CssLiteral.percentage p
      | _ => CssLiteral.position (List.intercalate " ".toList (toks.map posTokCss)), rest)
  | none =>
  match ratioP s with
  | some ((a, b), rest) => some (CssLiteral.ratioLit a b, rest)
  | none =>
  match frP s with
  | some (num, rest) => some (CssLiteral.fr num, rest)
  | none =>
  match colorP s with
  | some (c, rest) => some (CssLiteral.color c, rest)
  | none =>
  match angleP s with
  | some (a, rest) => some (CssLiteral.angle a, rest)
  | none =>
  match lengthP s with
  | some ((num, unit), rest) => some (CssLiteral.length num unit, rest)
  | none =>
  match numberP s with
  | some (num, rest) => some (CssLiteral.number num, rest)
  | none =>
  match percentageP s with
  | some (num, rest) => some (CssLiteral.percentage num, rest)
  | none =>
  match integerP s with
  | some (num, rest) => some (CssLiteral.integer num, rest)
  | none =>
  match absSizeP s with
  | some (a, rest) => some (CssLiteral.absoluteSize a, rest)
  | none =>
  match pLit "*".toList s with
  | some rest => some (CssLiteral.anyLit, rest)
  | none => none

/-- `data_type_parser().parse(s).into_output()`: the classification
succeeds only when the whole input is consumed. -/
def classify (s : Str) : Option CssLiteral :=
  match dataTypeChoice s with
  | some (l, []) => some l
  | _ => none

/-! ## Configuration data model and the instantiation engine
(`config_css.rs`) -/

/-- `SpecialParam` from `lib.rs`: the interpreted `/MODIFIER` suffix. -/
inductive SpecialParam where
  | Transparency (s : Str)
  | LineHeight (s : Str)

deriving DecidableEq

/-- `Property` from `config_css.rs` (`@tw-property`); the `syntax` field
is called `syn` (`syntax` is a Lean keyword). -/
structure Property where
  name : Str
  default_value : Option Str
  syn : Option Str

deriving DecidableEq

/-- `ValueType` from `config_css.rs`. -/
inductive ValueType where
  | length | color | ratioT | number | fr | integer | percentage
  | absoluteSize | angle | anyT | position

deriving DecidableEq

/-- `ValueType::css_literal_matches`. -/
def ValueType.cssLiteralMatches (t : ValueType) (l : CssLiteral) : Bool :=
  match t with
  | .length => match l with | .length .. => true | _ => false
  | .color => match l with | .color .. => true | _ => false
  | .ratioT => match l with | .ratioLit .. => true | _ => false
  | .number => match l with | .number .. => true | .integer .. => true | _ => false
  | .fr => match l with | .fr .. => true | _ => false
  | .integer => match l with | .integer .. => true | _ => false
  | .percentage => match l with | .percentage .. => true | _ => false
  | .absoluteSize => match l with | .absoluteSize .. => true | _ => false
  | .angle => match l with | .angle .. => true | _ => false
  | .anyT => true
  | .position => match l with | .position .. => true | _ => false

/-- `ValueUsage` from `config_css.rs`.  In `Var`, the key template is
stored without the `--` prefix and with the `*` removed; `insertAt` is the
offset of the removed `*`. -/
inductive ValueUsage where
  | typeU (t : ValueType)
  | arbType (t : ValueType)
  | literal (s : Str)
  | var (tmpl : Str) (insertAt : Nat)

deriving DecidableEq

/-- `ValueCall`. -/
structure ValueCall where
  params : List ValueUsage

deriving DecidableEq

/-- `ParsedCodePart`: literal text or an embedded `--value(...)` call. -/
inductive ParsedCodePart where
  | str (s : Str)
  | valueCall (c : ValueCall)

deriving DecidableEq

/-- `Utility` from `config_css.rs`. -/
structure Utility where
  name : Str
  parts : List ParsedCodePart
  has_value : Bool
  properties : List Property

deriving DecidableEq

/-- `Theme` from `config_css.rs`; the two `HashMap`s are association
lists (`hmInsert` below gives them insert-overwrites semantics). -/
structure Theme where
  vars : List (Str × Str)
  keyframes : List (Str × Str)

deriving DecidableEq

/-- `HashMap::get`. -/
def lookupVar (m : List (Str × Str)) (k : Str) : Option Str :=
  (m.find? (fun p => p.1 == k)).map (fun p => p.2)

/-- `HashMap::insert`: overwrite an existing binding, else append. -/
def hmInsert (m : List (Str × Str)) (k v : Str) : List (Str × Str) :=
  if (m.find? (fun p => p.1 == k)).isSome then
    m.map (fun p => if p.1 == k then (k, v) else p)
  else m ++ [(k, v)]

/-- `Variant` from `config_css.rs`. -/
structure Variant where
  name : Str
  body : Str
  target : Nat
  is_short : Bool

deriving DecidableEq

/-- `Variant::instantiate`: splice the wrapped body in at the stored
offset (`String::insert_str`). -/
def Variant.instantiate (v : Variant) (t : Str) : Str :=
  v.body.take v.target ++ t ++ v.body.drop v.target

/-- `expand_3_digit_hex`: the first three characters, each doubled. -/
def expand_3_digit_hex (hex : Str) : Str :=
  (hex.take 3).flatMap (fun c => [c, c])

/-- An approximation of `str::parse::<f32>` validity, sufficient for the
percent strings the engine builds: optional sign, then digits with at
most one decimal point and at least one digit (exponent forms and
`inf`/`nan` are not modelled; no claim exercises them). -/
def parsesAsF32 (s : Str) : Bool :=
  let body := match s with
    | '+' :: r => r
    | '-' :: r => r
    | r => r
  !body.isEmpty && body.all (fun c => c.isDigit || c = '.') &&
    (body.filter (fun c => c = '.')).length ≤ 1 && body.any Char.isDigit

/-- Decimal string to an exact rational (used only by the non-special
alpha branch; Rust computes this in `f32`, exact for the special-cased
`0%`/`100%` values every theorem below uses). -/
def parseDecimalQ (s : Str) : ℚ :=
  let (sign, body) := match s with
    | '-' :: r => ((-1 : ℚ), r)
    | '+' :: r => ((1 : ℚ), r)
    | r => ((1 : ℚ), r)
  let intPart := (takeRun Char.isDigit body).1
  let rest := (takeRun Char.isDigit body).2
  let fracPart := match rest with
    | '.' :: r => (takeRun Char.isDigit r).1
    | _ => []
  let intVal : ℚ := intPart.foldl (fun acc c => acc * 10 + (c.toNat - '0'.toNat)) 0
  let fracVal : ℚ := fracPart.foldr (fun c acc => (acc + (c.toNat - '0'.toNat)) / 10) 0
  sign * (intVal + fracVal)

/-- Uppercase hex digit. -/
def hexDigitU (n : Nat) : Char :=
  if n < 10 then Char.ofNat ('0'.toNat + n) else Char.ofNat ('A'.toNat + n - 10)

/-- The two-digit upper-case hex rendering of `n` (for `n < 256`). -/
def toHex2 (n : Nat) : Str := [hexDigitU (n / 16 % 16), hexDigitU (n % 16)]

/-- Rust `str::trim_ascii_start`. -/
def trimAsciiStart (s : Str) : Str := s.dropWhile isAsciiWs

/-- `insert_alpha` from `config_css.rs`: attach a percentage alpha to a
hex or functional color.  `alpha` is given like `100%`, `0%`, `20%`. -/
def insert_alpha (color0 alpha : Str) : Option Str :=
  let color := trimAsciiStart color0
  if "#".toList.isPrefixOf color then
    let pstr := alpha.take (alpha.length - 1)
    if !parsesAsF32 pstr then none
    else
      let byteVal : Nat :=
        if alpha = "100%".toList then 255
        else if alpha = "0%".toList then 0
        else
          -- Rust: ((255f32 / 100f32) * percent).clamp(0, 255).round() as i32
          let q := (255 / 100 : ℚ) * parseDecimalQ pstr
          let clamped := min (max q 0) 255
          (Int.floor (clamped + 1 / 2)).toNat
      let hexAlpha := toHex2 byteVal
      if color.length = 4 then
        some ('#' :: expand_3_digit_hex (color.drop 1) ++ hexAlpha)
      else if color.length = 7 then
        -- the source formats `#{color}` with `color` still carrying its
        -- own `#`, producing a double hash
        some ('#' :: color ++ hexAlpha)
      else none
  else if ["rgb".toList, "hsl".toList, "lab".toList, "lch".toList,
      "oklab".toList, "oklch".toList, "color".toList].any
        (fun p => p.isPrefixOf color) then
    if !color.contains '/' then
      match rfindIdxOpt (fun c => c = ')') color with
      | some i => some (color.take i ++ " / ".toList ++ alpha ++ color.drop i)
      | none => none
    else none
  else none

/-- `ValueUsage::literal_matches`: `none` is no match, `some none` a match
substituting the candidate itself, `some (some r)` a match with
replacement `r`. -/
def ValueUsage.literalMatches (u : ValueUsage) (theme : Theme) (value : Str)
    (lit : CssLiteral) (sp : Option SpecialParam) (isArb : Bool) :
    Option (Option Str) :=
  match u with
  | .typeU t =>
    if !isArb && t.cssLiteralMatches lit then
      match lit, sp with
      | .color .., some (.Transparency ts) =>
        match insert_alpha value ts with
        | some withAlpha => some (some withAlpha)
        | none => some none
      | _, _ => some none
    else none
  | .arbType t => if isArb && t.cssLiteralMatches lit then some none else none
  | .literal s =>
    match lit with
    | .other x => if x = s then some none else none
    | _ => none
  | .var tmpl insertAt =>
    let toCheck := tmpl.take insertAt ++ value ++ tmpl.drop insertAt
    match lookupVar theme.vars toCheck with
    | some tv =>
      match sp with
      | some (.Transparency ts) =>
        match insert_alpha tv ts with
        | some inserted => some (some inserted)
        | none => some (some tv)
      | _ => some (some tv)
    | none => none

/-- First matching parameter of a `--value(...)` call
(`call.params.iter().find_map(...)`). -/
def firstMatch (theme : Theme) (value : Str) (lit : CssLiteral)
    (sp : Option SpecialParam) (isArb : Bool) (c : ValueCall) : Option (Option Str) :=
  c.params.findSome? (fun p => p.literalMatches theme value lit sp isArb)

/-- The backward walk of `Utility::instantiate` (the "find start of line"
loop), over the reversed prefix of `parts` before the anchor.  A `str`
part containing a newline ends the walk with the text after its last
newline; a sibling `--value` call must match or the whole line is
abandoned (`none`). -/
def walkBck (theme : Theme) (value : Str) (lit : CssLiteral)
    (sp : Option SpecialParam) (isArb : Bool) :
    List ParsedCodePart → Str → Option Str
  | [], acc => some acc
  | .str s :: rest, acc =>
    match rfindIdxOpt (fun c => c = '\n') s with
    | some nl =>
      some ((if nl + 1 < s.length then s.drop (nl + 1) else []) ++ acc)
    | none => walkBck theme value lit sp isArb rest (s ++ acc)
  | .valueCall c :: rest, acc =>
    match firstMatch theme value lit sp isArb c with
    | some repl =>
      walkBck theme value lit sp isArb rest ((repl.getD value) ++ acc)
    | none => none

/-- The forward walk of `Utility::instantiate` (the "find end of line"
loop), over the suffix of `parts` after the anchor. -/
def walkFwd (theme : Theme) (value : Str) (lit : CssLiteral)
    (sp : Option SpecialParam) (isArb : Bool) :
    List ParsedCodePart → Str → Option Str
  | [], acc => some acc
  | .str s :: rest, acc =>
    match findIdxOpt (fun c => c = '\n') s with
    | some nl => some (acc ++ (if nl ≠ 0 then s.take nl else []))
    | none => walkFwd theme value lit sp isArb rest (acc ++ s)
  | .valueCall c :: rest, acc =>
    match firstMatch theme value lit sp isArb c with
    | some repl => walkFwd theme value lit sp isArb rest (acc ++ repl.getD value)
    | none => none

/-- `UtilityInstantiationError`. -/
inductive UtilityInstantiationError where
  | DontNeedValue | NeedValue | NothingMatched

deriving DecidableEq

/-- The `'outer` loop of `Utility::instantiate`: `revPre` is the reversed
prefix of already-passed parts, `rest` the remaining parts.  On a sibling
mismatch during either walk the loop continues with the next part. -/
def instLoop (theme : Theme) (value : Str) (lit : CssLiteral)
    (sp : Option SpecialParam) (isArb : Bool) :
    List ParsedCodePart → List ParsedCodePart →
      Except UtilityInstantiationError Str
  | _, [] => .error .NothingMatched
  | revPre, part :: rest =>
    match part with
    | .str _ => instLoop theme value lit sp isArb (part :: revPre) rest
    | .valueCall call =>
      match firstMatch theme value lit sp isArb call with
      | none => instLoop theme value lit sp isArb (part :: revPre) rest
      | some repl =>
        match walkBck theme value lit sp isArb revPre [] with
        | none => instLoop theme value lit sp isArb (part :: revPre) rest
        | some back =>
          match walkFwd theme value lit sp isArb rest [] with
          | none => instLoop theme value lit sp isArb (part :: revPre) rest
          | some fwd => .ok (back ++ repl.getD value ++ fwd)

/-- `Utility::instantiate`. -/
def Utility.instantiate (u : Utility) (theme : Theme) (value : Option Str)
    (sp : Option SpecialParam) (isArb : Bool) :
    Except UtilityInstantiationError Str :=
  if u.has_value then
    match value with
    | none => .error .NeedValue
    | some v =>
      let lit := (classify v).getD (.other v)
      instLoop theme v lit sp isArb [] u.parts
  else
    match value with
    | some _ => .error .DontNeedValue
    | none =>
      .ok ((u.parts.map (fun p => match p with
        | .str s => s
        | .valueCall _ => [])).flatten)

deriving instance DecidableEq for Except

/-- The `--value` calls on the emitted line, walking backwards from the
anchor (argument is the reversed prefix): collection stops at the first
text part containing a newline.  Defined independently of the walk
functions; used to state the line-satisfaction property. -/
def callsBck : List ParsedCodePart → List ValueCall
  | [] => []
  | .str s :: rest =>
    if (rfindIdxOpt (fun c => c = '\n') s).isSome then [] else callsBck rest
  | .valueCall c :: rest => c :: callsBck rest

/-- The `--value` calls on the emitted line after the anchor. -/
def callsFwd : List ParsedCodePart → List ValueCall
  | [] => []
  | .str s :: rest =>
    if (findIdxOpt (fun c => c = '\n') s).isSome then [] else callsFwd rest
  | .valueCall c :: rest => c :: callsFwd rest

/-- Concrete two-line template for exercising line suppression:
`a: --value("x");\nb: --value("y");`. -/
def uC1 : Utility :=
  ⟨"ex".toList,
   [.str "a: ".toList, .valueCall ⟨[.literal "x".toList]⟩,
    .str ";\nb: ".toList, .valueCall ⟨[.literal "y".toList]⟩, .str ";".toList],
   true, []⟩

/-- The empty theme. -/
def thEmpty : Theme := ⟨[], []⟩

/-! ## Name resolution (`EmitEnv::parse_tailwind_str`, lib.rs 578-633) -/

/-- `Ok`-projection of an instantiation result. -/
def resOpt (r : Except UtilityInstantiationError Str) : Option Str :=
  match r with
  | .ok s => some s
  | .error _ => none

/-- Phase (a) of name resolution: `has_value=false` templates whose name
equals the full joined name.  Each success overwrites the body and
appends the template's properties, mirroring the first `for` loop. -/
def resolvePhaseA (theme : Theme) (full : Str) (sp : Option SpecialParam)
    (utilities : List Utility) (acc : Option Str × List Property) :
    Option Str × List Property :=
  utilities.foldl (fun acc u =>
    if u.name == full && !u.has_value then
      match u.instantiate theme none sp false with
      | .ok res => (some res, acc.2 ++ u.properties)
      | .error _ => acc
    else acc) acc

/-- Phase (b): `has_value=true` templates whose name is a proper prefix of
the full name; the value is the remainder after one more character. -/
def resolvePhaseB (theme : Theme) (full : Str) (sp : Option SpecialParam)
    (utilities : List Utility) (acc : Option Str × List Property) :
    Option Str × List Property :=
  utilities.foldl (fun acc u =>
    if u.has_value && u.name.isPrefixOf full && decide (u.name.length < full.length) then
      match u.instantiate theme (some (full.drop (u.name.length + 1))) sp false with
      | .ok res => (some res, acc.2 ++ u.properties)
      | .error _ => acc
    else acc) acc

/-- Phase (c): `has_value=true` templates whose name equals the joined
name without the last segment; the last segment is the value. -/
def resolvePhaseC (theme : Theme) (preStr lastStr : Str) (sp : Option SpecialParam)
    (utilities : List Utility) (acc : Option Str × List Property) :
    Option Str × List Property :=
  utilities.foldl (fun acc u =>
    if u.name == preStr && u.has_value then
      match u.instantiate theme (some lastStr) sp false with
      | .ok res => (some res, acc.2 ++ u.properties)
      | .error _ => acc
    else acc) acc

/-- The three name-resolution loops of `parse_tailwind_str` in order;
`body_to_set` starts as `None` and every successful instantiation
overwrites it. -/
def resolveBody (theme : Theme) (full preStr lastStr : Str)
    (sp : Option SpecialParam) (utilities : List Utility) :
    Option Str × List Property :=
  resolvePhaseC theme preStr lastStr sp utilities
    (resolvePhaseB theme full sp utilities
      (resolvePhaseA theme full sp utilities (none, [])))

/-- The instantiation attempt a single template contributes in phase (a). -/
def attemptA (theme : Theme) (full : Str) (sp : Option SpecialParam)
    (u : Utility) : Option Str :=
  if u.name == full && !u.has_value then resOpt (u.instantiate theme none sp false)
  else none

/-- The attempt contributed in phase (b). -/
def attemptB (theme : Theme) (full : Str) (sp : Option SpecialParam)
    (u : Utility) : Option Str :=
  if u.has_value && u.name.isPrefixOf full && decide (u.name.length < full.length) then
    resOpt (u.instantiate theme (some (full.drop (u.name.length + 1))) sp false)
  else none

/-- The attempt contributed in phase (c). -/
def attemptC (theme : Theme) (preStr lastStr : Str) (sp : Option SpecialParam)
    (u : Utility) : Option Str :=
  if u.name == preStr && u.has_value then
    resOpt (u.instantiate theme (some lastStr) sp false)
  else none

/-- Last `some` of a list of attempts, starting from `init`. -/
def lastSomeFrom (l : List (Option Str)) (init : Option Str) : Option Str :=
  l.foldl (fun acc x => match x with | some r => some r | none => acc) init

/-- First `some` of a list of attempts (the order the claim asserts). -/
def firstSome : List (Option Str) → Option Str
  | [] => none
  | some r :: _ => some r
  | none :: rest => firstSome rest

/-- Value-taking template `foo-*` with body line `first: --value(any)`. -/
def uFirst : Utility :=
  ⟨"foo".toList, [.str "first: ".toList, .valueCall ⟨[.typeU .anyT]⟩], true, []⟩

/-- A second value-taking template with the same name `foo-*` declared
after it, with body line `second: --value(any)`. -/
def uSecond : Utility :=
  ⟨"foo".toList, [.str "second: ".toList, .valueCall ⟨[.typeU .anyT]⟩], true, []⟩

/-! ## Utility-token lexer and parser

Modelled from the spec: the current `lexer.rs`/`parser.rs` are not in the
tree (see the header); §4.C/§4.D of the specification and the call sites
in `lib.rs` determine the behaviour modelled here. -/

/-- A lexer token (spec §4.C). -/
inductive Token where
  | ctrl (c : Char)
  | ident (s : Str)
  | raw (s : Str)

deriving DecidableEq

/-- Modelled from the spec: the body of a `[`…`]` group up to the
matching `]`, keeping inner bracket pairs. -/
def bracketBody : Nat → Str → Str → Option (Str × Str)
  | 0, _, _ => none
  | fuel + 1, s, acc =>
    match s with
    | [] => none
    | ']' :: rest => some (acc, rest)
    | '[' :: rest =>
      match bracketBody fuel rest [] with
      | some (inner, rest2) =>
        bracketBody fuel rest2 (acc ++ '[' :: inner ++ [']'])
      | none => none
    | c :: rest => bracketBody fuel rest (acc ++ [c])

/-- Modelled from the spec: `parse_raw_text` — a `[`…`]` group allowing
nested brackets.  Returns the body and the rest of the input. -/
def bracketScanP (fuel : Nat) (s : Str) : Option (Str × Str) :=
  match s with
  | '[' :: rest => bracketBody fuel rest []
  | _ => none

/-- Identifier characters (spec §4.C: `[A-Za-z0-9/#]`). -/
def isIdentChar (c : Char) : Bool := c.isAlphanum || c = '/' || c = '#'

/-- The control characters (spec §4.C). -/
def isCtrlChar (c : Char) : Bool :=
  c = '-' || c = '*' || c = '[' || c = ']' || c = '(' || c = ')' || c = '_' || c = ':'

/-- Modelled from the spec: the token lexer — longest-match tokens until
whitespace (which terminates the scan) or an unrecognized character.
Returns the tokens and the unconsumed rest; the matched length is the
difference of lengths. -/
def lexScan : Nat → Str → List Token → List Token × Str
  | 0, s, acc => (acc.reverse, s)
  | fuel + 1, s, acc =>
    match s with
    | [] => (acc.reverse, [])
    | c :: rest =>
      if c = '[' then
        match bracketScanP (s.length + 1) s with
        | some (inner, rest2) => lexScan fuel rest2 (Token.raw inner :: acc)
        | none => lexScan fuel rest (Token.ctrl '[' :: acc)
      else if isIdentChar c then
        let r := takeRun isIdentChar s
        lexScan fuel r.2 (Token.ident r.1 :: acc)
      else if isCtrlChar c then lexScan fuel rest (Token.ctrl c :: acc)
      else (acc.reverse, s)

/-- `ParsedUnit` from `parser.rs`. -/
inductive ParsedUnit where
  | str (s : Str)
  | raw (s : Str)

deriving DecidableEq

/-- The parse of one token: variant chains and the final utility, each a
non-empty list of segments (`lib.rs` consumes multi-segment chains). -/
structure Parsed where
  variants : List (List ParsedUnit)
  utility : List ParsedUnit

deriving DecidableEq

/-- Split the token stream on `Ctrl(':')` (spec §4.D). -/
def splitColon : List Token → List (List Token)
  | [] => [[]]
  | Token.ctrl ':' :: rest => [] :: splitColon rest
  | t :: rest =>
    match splitColon rest with
    | g :: gs => (t :: g) :: gs
    | [] => [[t]]

/-- Segments after the first, each preceded by `Ctrl('-')`. -/
def segsLoop : List Token → List ParsedUnit → Option (List ParsedUnit)
  | [], acc => some acc.reverse
  | Token.ctrl '-' :: Token.ident s :: rest, acc =>
    segsLoop rest (ParsedUnit.str s :: acc)
  | Token.ctrl '-' :: Token.raw r :: rest, acc =>
    segsLoop rest (ParsedUnit.raw r :: acc)
  | _, _ => none

/-- Modelled from the spec: one group between colons — segments separated
by `Ctrl('-')`; a leading `Ctrl('-')` is preserved as a leading `-` on the
first segment's text. -/
def parseGroup : List Token → Option (List ParsedUnit)
  | Token.ident s :: rest => segsLoop rest [ParsedUnit.str s]
  | Token.raw r :: rest => segsLoop rest [ParsedUnit.raw r]
  | Token.ctrl '-' :: Token.ident s :: rest => segsLoop rest [ParsedUnit.str ('-' :: s)]
  | _ => none

/-- A group is well-formed when only its last segment is a `Raw`
(spec §3/§4.D validation). -/
def groupValid (g : List ParsedUnit) : Bool :=
  g.dropLast.all (fun u => match u with | .str _ => true | .raw _ => false)

/-- Modelled from the spec: the token parser — split on `:` into variant
chains and the final utility, split each group on `-`, and validate the
`Raw` placement. -/
def duckwindParse (toks : List Token) : Option Parsed :=
  let groups := splitColon toks
  match groups.mapM parseGroup with
  | none => none
  | some gs =>
    if gs.all groupValid then
      match gs.getLast? with
      | some util => some ⟨gs.dropLast, util⟩
      | none => none
    else none

/-! ## Variant application (`lib.rs` 119-378 and 657-801) -/

/-- Opening brace character (written via its code so that brace-bearing
CSS text can be assembled without brace literals). -/
def obrC : Char := Char.ofNat 123

/-- Closing brace character. -/
def cbrC : Char := Char.ofNat 125

/-- Wrap a body in a selector block: the selector, a space, an opening
brace, a newline, the body, a newline and a closing brace. -/
def blockWrap (sel body : Str) : Str :=
  sel ++ [' ', obrC, '\n'] ++ body ++ ['\n', cbrC]

/-- `get_breakpoint_var`: a theme `breakpoint-NAME` variable, else the
built-in defaults. -/
def getBreakpointVar (theme : Theme) (name : Str) : Option Str :=
  match lookupVar theme.vars ("breakpoint-".toList ++ name) with
  | some v => some v
  | none =>
    if name = "sm".toList then some "40rem".toList
    else if name = "md".toList then some "48rem".toList
    else if name = "lg".toList then some "64rem".toList
    else if name = "xl".toList then some "80rem".toList
    else if name = "2xl".toList then some "96rem".toList
    else none

/-- `get_container_breakpoint_var`. -/
def getContainerBreakpointVar (theme : Theme) (name : Str) : Option Str :=
  match lookupVar theme.vars ("container-".toList ++ name) with
  | some v => some v
  | none =>
    if name = "3xs".toList then some "16rem".toList
    else if name = "2xs".toList then some "18rem".toList
    else if name = "xs".toList then some "20rem".toList
    else if name = "sm".toList then some "24rem".toList
    else if name = "md".toList then some "28rem".toList
    else if name = "lg".toList then some "32rem".toList
    else if name = "xl".toList then some "36rem".toList
    else if name = "2xl".toList then some "42rem".toList
    else if name = "3xl".toList then some "48rem".toList
    else if name = "4xl".toList then some "56rem".toList
    else if name = "5xl".toList then some "64rem".toList
    else if name = "6xl".toList then some "72rem".toList
    else if name = "7xl".toList then some "80rem".toList
    else none

/-- The join the variant engine applies to a chain: `String` segments
keep their text, `Raw` segments map to the empty string. -/
def joinedOf (l : List ParsedUnit) : Str :=
  List.intercalate "-".toList
    (l.map (fun u => match u with | .str s => s | .raw _ => []))

/-- Rust `str::replace("&", rep)`. -/
def replaceAmp (s rep : Str) : Str :=
  s.flatMap (fun c => if c = '&' then rep else [c])

/-- `EmitEnv::resolve_internal_variant` (lib.rs 163-378), recursing for
`not` and the `has`/`not` tails of `peer`/`in`/`group`.  Where the Rust
indexes `v[1]` on a too-short chain, or `unwrap`s a failed brace search, it
panics; this model returns `none` there (unreachable from parsed tokens
in the cases the theorems exercise). -/
def resolveInternalVariant (variants : List Variant) (theme : Theme)
    (body : Str) : Nat → List ParsedUnit → Option Str
  | _, [] => none
  | 0, _ :: _ => none
  | fuel + 1, v0 :: vrest =>
    match v0 with
    | .raw _ => none
    | .str s =>
      if s = "data".toList then
        match vrest.head? with
        | none => none
        | some (.raw r) =>
          some (blockWrap ("&[data-".toList ++ r ++ "]".toList) body)
        | some (.str _) =>
          some (blockWrap ("&[data-".toList ++ joinedOf vrest ++ "]".toList) body)
      else if s = "nth".toList then
        match vrest.head? with
        | some (.raw r) =>
          some (blockWrap ("&:nth-child(".toList ++ r ++ ")".toList) body)
        | _ => none
      else if s = "nth-last".toList then
        match vrest.head? with
        | some (.raw r) =>
          some (blockWrap ("&:nth-last-child(".toList ++ r ++ ")".toList) body)
        | _ => none
      else if s = "nth-of-type".toList then
        match vrest.head? with
        | some (.raw r) =>
          some (blockWrap ("&:nth-of-type(".toList ++ r ++ ")".toList) body)
        | _ => none
      else if s = "nth-last-of-type".toList then
        match vrest.head? with
        | some (.raw r) =>
          some (blockWrap ("&:nth-last-of-type(".toList ++ r ++ ")".toList) body)
        | _ => none
      else if s = "has".toList then
        match vrest.head? with
        | none => none
        | some (.str _) =>
          some (blockWrap ("&:has(:".toList ++ joinedOf vrest ++ ")".toList) body)
        | some (.raw r) =>
          some (blockWrap ("&:has(".toList ++ r ++ ")".toList) body)
      else if s = "aria".toList then
        match vrest.head? with
        | none => none
        | some (.str next) =>
          if next = "busy".toList then some "&[aria-busy=\"true\"]".toList
          else if next = "checked".toList then some "&[aria-checked=\"true\"]".toList
          else if next = "disabled".toList then some "&[aria-disabled=\"true\"]".toList
          else if next = "expanded".toList then some "&[aria-expanded=\"true\"]".toList
          else if next = "hidden".toList then some "&[aria-hidden=\"true\"]".toList
          else if next = "pressed".toList then some "&[aria-pressed=\"true\"]".toList
          else if next = "readonly".toList then some "&[aria-readonly=\"true\"]".toList
          else if next = "required".toList then some "&[aria-required=\"true\"]".toList
          else if next = "selected".toList then some "&[aria-selected=\"true\"]".toList
          else none
        | some (.raw rawNext) => some ("&[aria-".toList ++ rawNext ++ "]".toList)
      else if s = "not".toList then
        match resolveInternalVariant variants theme body fuel vrest with
        | none => none
        | some other =>
          match findIdxOpt (fun c => !c.isWhitespace) other with
          | none => some other
          | some start0 =>
            let start :=
              if other[start0]? = some '&' ∧ start0 + 1 < other.length then start0 + 1
              else start0
            match findIdxOpt (fun c => c = '\n') (other.drop start) with
            | none => some other
            | some nlRel =>
              -- the source uses the index found in `other[start..]` as an
              -- absolute insertion index; kept as-is
              let step1 := other.take nlRel ++ [')'] ++ other.drop nlRel
              some (step1.take start ++ ":not(".toList ++ step1.drop start)
      else if s = "peer".toList then
        match vrest with
        | [] => none
        | v1 :: vrest2 =>
          match v1 with
          | .str param1 =>
            let joined := joinedOf vrest
            match splitOnce '/' param1 with
            | some (param, peerName) =>
              if param = "has".toList ∨ param = "not".toList then
                match resolveInternalVariant variants theme body fuel
                    (ParsedUnit.str param :: vrest2) with
                | none => none
                | some res =>
                  match findIdxOpt (fun c => c = obrC) res with
                  | none => none
                  | some bi =>
                    let cond := (res.take bi).drop 1
                    some (blockWrap ("&:is(:where(.peer".toList ++
                      escape_string_for_css ('/' :: peerName) ++ ")".toList ++
                      cond ++ " ~ *)".toList) body)
              else
                some (blockWrap ("&:is(:where(.peer".toList ++
                  escape_string_for_css ('/' :: peerName) ++ "):is(:".toList ++
                  joined ++ ") ~ *)".toList) body)
            | none =>
              if param1 = "has".toList ∨ param1 = "not".toList then
                match resolveInternalVariant variants theme body fuel
                    (ParsedUnit.str param1 :: vrest2) with
                | none => none
                | some res =>
                  match findIdxOpt (fun c => c = obrC) res with
                  | none => none
                  | some bi =>
                    let cond := (res.take bi).drop 1
                    some (blockWrap ("&:is(:where(.peer)".toList ++ cond ++
                      " ~ *)".toList) body)
              else
                some (blockWrap ("&:is(:where(.peer):is(:".toList ++ joined ++
                  ") ~ *)".toList) body)
          | .raw param1 =>
            if param1.contains '&' then
              some (blockWrap ("&:is(".toList ++
                replaceAmp param1 ":where(.peer) ~ *".toList ++ ")".toList) body)
            else
              some (blockWrap ("&:is(:where(.peer):is(".toList ++ param1 ++
                ") ~ *)".toList) body)
      else if s = "in".toList then
        match vrest with
        | [] => none
        | v1 :: vrest2 =>
          match v1 with
          | .str param1 =>
            if param1 = "has".toList ∨ param1 = "not".toList then
              match resolveInternalVariant variants theme body fuel
                  (ParsedUnit.str param1 :: vrest2) with
              | none => none
              | some res =>
                match findIdxOpt (fun c => c = obrC) res with
                | none => none
                | some bi =>
                  let cond := (res.take bi).drop 1
                  some (blockWrap ("&:is(:where(".toList ++ cond ++
                    ") *)".toList) body)
            else
              some (blockWrap ("&:is(:where(:".toList ++ joinedOf vrest ++
                ") *)".toList) body)
          | .raw param1 =>
            some (blockWrap ("&:is(:where(".toList ++ param1 ++ ") *)".toList) body)
      else if s = "group".toList then
        match vrest with
        | [] => none
        | v1 :: vrest2 =>
          match v1 with
          | .str param1 =>
            let joined := joinedOf vrest
            match splitOnce '/' param1 with
            | some (param, groupName) =>
              if param = "has".toList ∨ param = "not".toList then
                match resolveInternalVariant variants theme body fuel
                    (ParsedUnit.str param :: vrest2) with
                | none => none
                | some res =>
                  match findIdxOpt (fun c => c = obrC) res with
                  | none => none
                  | some bi =>
                    let cond := (res.take bi).drop 1
                    some (blockWrap ("&:is(:where(.group".toList ++
                      escape_string_for_css ('/' :: groupName) ++ ")".toList ++
                      cond ++ " *)".toList) body)
              else
                some (blockWrap ("&:is(:where(.group".toList ++
                  escape_string_for_css ('/' :: groupName) ++ "):is(:".toList ++
                  joined ++ ") *)".toList) body)
            | none =>
              if param1 = "has".toList ∨ param1 = "not".toList then
                match resolveInternalVariant variants theme body fuel
                    (ParsedUnit.str param1 :: vrest2) with
                | none => none
                | some res =>
                  match findIdxOpt (fun c => c = obrC) res with
                  | none => none
                  | some bi =>
                    let cond := (res.take bi).drop 1
                    some (blockWrap ("&:is(:where(.group)".toList ++ cond ++
                      " *)".toList) body)
              else
                some (blockWrap ("&:is(:where(.group):is(:".toList ++ joined ++
                  ") *)".toList) body)
          | .raw param1 =>
            if param1.contains '&' then
              some (blockWrap ("&:is(".toList ++
                replaceAmp param1 ":where(.group) *".toList ++ ")".toList) body)
            else
              some (blockWrap ("&:is(:where(.group):is(".toList ++ param1 ++
                ") *)".toList) body)
      else none

/-- `CssDef` from `lib.rs`. -/
structure CssDef where
  pseudo_elements : List Str
  class_name : Str
  body : Str

deriving DecidableEq

/-- `EmitEnv` from `lib.rs`; `defs_generated` models the `HashSet` as a
duplicate-free insertion list. -/
structure EmitEnv where
  defs : List CssDef
  utilities : List Utility
  variants : List Variant
  theme : Theme
  defs_generated : List Str
  custom_properties : List Property

deriving DecidableEq

/-- `HashSet::insert` (a second insert leaves the set unchanged). -/
def hsInsert (l : List Str) (x : Str) : List Str :=
  if l.contains x then l else l ++ [x]

/-- The pseudo-element variant names recognized first (lib.rs 662-677). -/
def pseudoNames : List Str :=
  ["before".toList, "after".toList, "placeholder".toList, "file".toList,
   "selection".toList, "first-letter".toList, "first-line".toList,
   "backdrop".toList]

/-- One step of the variant loop of `parse_tailwind_str` (lib.rs 657-801):
apply the chain `v` to the current `CssDef`.  `none` is the `?` exit (no
rule emitted). -/
def applyVariant (variants : List Variant) (theme : Theme) (cd : CssDef)
    (v : List ParsedUnit) : Option CssDef :=
  match v with
  | [] => none
  | v0 :: vrest =>
    match v0 with
    | .raw rawStr =>
      if "::".toList.isPrefixOf rawStr then
        some { cd with pseudo_elements := cd.pseudo_elements ++ [rawStr.drop 2] }
      else some { cd with body := blockWrap rawStr cd.body }
    | .str vstr =>
      if pseudoNames.contains vstr then
        some { cd with pseudo_elements := cd.pseudo_elements ++ [vstr] }
      else if vstr = "*".toList then
        some { cd with body := blockWrap "& > *".toList cd.body }
      else if vstr = "**".toList then
        some { cd with body := blockWrap "& *".toList cd.body }
      else if vstr = "min".toList then
        match vrest.head? with
        | some (.raw r) =>
          some { cd with body := blockWrap ("@media (width >= ".toList ++ r ++ ")".toList) cd.body }
        | some (.str _) => some cd
        | none => none
      else if vstr = "max".toList then
        match vrest.head? with
        | some (.raw r) =>
          some { cd with body := blockWrap ("@media (width < ".toList ++ r ++ ")".toList) cd.body }
        | some (.str _) => some cd
        | none => none
      else if vstr = "@min".toList then
        match vrest.head? with
        | some (.raw r) =>
          some { cd with body := blockWrap ("@container (width >= ".toList ++ r ++ ")".toList) cd.body }
        | some (.str _) => some cd
        | none => none
      else if vstr = "@max".toList then
        match vrest.head? with
        | some (.raw r) =>
          some { cd with body := blockWrap ("@container (width < ".toList ++ r ++ ")".toList) cd.body }
        | some (.str _) => some cd
        | none => none
      else if vstr = "supports".toList then
        match vrest.head? with
        | some (.raw r) =>
          some { cd with body := blockWrap ("@supports (".toList ++ r ++ ")".toList) cd.body }
        | some (.str _) =>
          some { cd with body := blockWrap ("@supports (".toList ++ joinedOf vrest ++ ")".toList) cd.body }
        | none => none
      else if vstr = "not".toList ∧ vrest.head? = some (.str "supports".toList) then
        -- the guard forces `v[1]` to be the `String` "supports", so the
        -- source's `if let Raw(r) = &v[1].0` branch is dead and the joined
        -- chain (with `Raw` mapped to "") forms the condition
        some { cd with body := blockWrap ("@supports (not ".toList ++ joinedOf vrest ++ ")".toList) cd.body }
      else
        let joined := joinedOf v
        match getBreakpointVar theme joined with
        | some bp =>
          some { cd with body := blockWrap ("@media (width >= ".toList ++ bp ++ ")".toList) cd.body }
        | none =>
          let contOpt :=
            if "@".toList.isPrefixOf joined ∧ 1 < joined.length then
              getContainerBreakpointVar theme (joined.drop 1)
            else none
          match contOpt with
          | some cbp =>
            some { cd with body := blockWrap ("@container (width >= ".toList ++ cbp ++ ")".toList) cd.body }
          | none =>
            match variants.find? (fun x => x.name == joined) with
            | some variant => some { cd with body := variant.instantiate cd.body }
            | none =>
              match resolveInternalVariant variants theme cd.body (v.length + 1) v with
              | some newBody => some { cd with body := newBody }
              | none => none

/-- The variant loop over all chains, in order; a failing chain aborts the
whole token (the `?`). -/
def applyVariants (variants : List Variant) (theme : Theme) :
    CssDef → List (List ParsedUnit) → Option CssDef
  | cd, [] => some cd
  | cd, ch :: rest =>
    match applyVariant variants theme cd ch with
    | some cd2 => applyVariants variants theme cd2 rest
    | none => none

/-- The `/MODIFIER` handling of `parse_tailwind_str` (lib.rs 516-577):
interpret the suffix of the last segment as a line-height or transparency
special parameter; on success the last segment is shortened to the part
before the `/`. -/
def extractSpecial (theme : Theme) (preList : List Str) (preStr : Str)
    (lastStr0 : Str) : Option SpecialParam × Str :=
  match splitOnce '/' lastStr0 with
  | none => (none, lastStr0)
  | some (preVal, spVal) =>
    let sp1 : Option SpecialParam :=
      if "text".toList.isPrefixOf preStr ∧
          (lookupVar theme.vars
            ("text".toList ++ (if 1 < preList.length then [] else "-".toList) ++
              List.intercalate "-".toList
                (([preStr.drop 4, preVal]).filter (fun x => !x.isEmpty)))).isSome then
        if "[".toList.isPrefixOf spVal ∧ "]".toList.isSuffixOf spVal then
          some (.LineHeight ((spVal.drop 1).dropLast))
        else
          some (.LineHeight ("calc(var(--spacing) * ".toList ++ spVal ++ ")".toList))
      else none
    let sp2 : Option SpecialParam :=
      match sp1 with
      | some _ => sp1
      | none =>
        let idx := (findIdxOpt (fun c => c = '-') preStr).getD preStr.length
        let afterIdx := preStr.drop idx
        if (lookupVar theme.vars
            ("color".toList ++ afterIdx ++
              (if afterIdx.isEmpty then [] else "-".toList) ++ preVal)).isSome then
          some (.Transparency (spVal ++ "%".toList))
        else
          match classify preVal with
          | some (.number _) =>
            some (.LineHeight ("calc(var(--spacing) * ".toList ++ spVal ++ ")".toList))
          | some (.color _) => some (.Transparency (spVal ++ "%".toList))
          | _ => none
    match sp2 with
    | some _ => (sp2, preVal)
    | none => (none, lastStr0)

/-- The resolution loop for a `Raw` last segment (lib.rs 635-651):
`has_value` templates named like the leading segments, instantiated with
the raw value, `is_arb = true` and no special parameter. -/
def resolveRawLast (theme : Theme) (preStr rawValue : Str)
    (utilities : List Utility) : Option Str × List Property :=
  utilities.foldl (fun acc u =>
    if u.name == preStr && u.has_value then
      match u.instantiate theme (some rawValue) none true with
      | .ok res => (some res, acc.2 ++ u.properties)
      | .error _ => acc
    else acc) (none, [])

/-- The name-resolution part of `parse_tailwind_str` (lib.rs 496-653):
from the parsed utility segments to the optional body and the accumulated
`@property` declarations. -/
def resolveUtilityBody (theme : Theme) (utilities : List Utility)
    (utility : List ParsedUnit) : Option Str × List Property :=
  match utility with
  | [ParsedUnit.raw rawCss] => (some rawCss, [])
  | _ =>
    let preList := utility.dropLast.map
      (fun x => match x with | .str s => s | .raw _ => [])
    let preStr := List.intercalate "-".toList preList
    match utility.getLast? with
    | none => (none, [])
    | some (.str lastStr0) =>
      let es := extractSpecial theme preList preStr lastStr0
      let full := List.intercalate "-".toList (preList ++ [es.2])
      let r := resolveBody theme full preStr es.2 es.1 utilities
      let body2 :=
        match es.1, r.1 with
        | some (.LineHeight after), some res =>
          some (res ++ "\nline-height: ".toList ++ after ++ ";".toList)
        | _, b => b
      (body2, r.2)
    | some (.raw rawValue) => resolveRawLast theme preStr rawValue utilities

/-- The body of `EmitEnv::parse_tailwind_str` (lib.rs 463-806) after the
prefix strip: lex and parse the token, dedup on the *unprefixed* escaped
class name, resolve the utility body (appending `@property` declarations
as resolution succeeds), apply the variant chains, and record the rule
under the *prefixed* class name.  Returns the updated environment and, on
success, the rule and the matched length. -/
def parseTailwindStrCore (env : EmitEnv) (pfx : Option Str) (src : Str) :
    EmitEnv × Option (CssDef × Nat) :=
    let lexed := lexScan (src.length + 1) src []
    let endN := src.length - lexed.2.length
    match duckwindParse lexed.1 with
    | none => (env, none)
    | some parsed =>
      let className := escape_string_for_css (src.take endN)
      if env.defs_generated.contains className then (env, none)
      else
        let resolved := resolveUtilityBody env.theme env.utilities parsed.utility
        let env1 := { env with
          custom_properties := env.custom_properties ++ resolved.2 }
        match resolved.1 with
        | none => (env1, none)
        | some body0 =>
          let cd0 : CssDef := ⟨[], (pfx.getD []) ++ className, body0⟩
          match applyVariants env1.variants env1.theme cd0 parsed.variants with
          | none => (env1, none)
          | some cd =>
            ({ env1 with
                defs := env1.defs ++ [cd],
                defs_generated := hsInsert env1.defs_generated cd.class_name },
             some (cd, endN))

/-- `EmitEnv::parse_tailwind_str`: check and strip the prefix, then run
the core above. -/
def parseTailwindStr (env : EmitEnv) (pfx : Option Str) (src0 : Str) :
    EmitEnv × Option (CssDef × Nat) :=
  match pfx with
  | some p =>
    if p.isPrefixOf src0 then parseTailwindStrCore env pfx (src0.drop p.length)
    else (env, none)
  | none => parseTailwindStrCore env pfx src0

/-- Minimal fixture: a value-less utility `foo` with body `color: red;`. -/
def uFoo : Utility := ⟨"foo".toList, [.str "color: red;".toList], false, []⟩

/-- A fixture `@tw-property` declaration. -/
def pEx : Property := ⟨"--p".toList, none, none⟩

/-- A value-less utility `bar` carrying the `@property` declaration. -/
def uBar : Utility := ⟨"bar".toList, [.str "color: red;".toList], false, [pEx]⟩

/-- An environment containing only `uFoo`. -/
def envFoo : EmitEnv := ⟨[], [uFoo], [], ⟨[], []⟩, [], []⟩

/-- An environment containing only `uBar`. -/
def envBar : EmitEnv := ⟨[], [uBar], [], ⟨[], []⟩, [], []⟩

/-! ## The configuration grammar (`config_css.rs`) and `load_config`

Recursive-descent port of `config_parser` and its sub-parsers, in the
same `Option (result × rest)` style as the literal classifier.  Span
arithmetic (variant targets) is replaced by direct character positions,
which coincides with the source's byte arithmetic on ASCII input. -/

/-- `ignore_whitespace`: spaces only. -/
def wsSpaces (s : Str) : Str := (takeRun (fun c => c = ' ') s).2

/-- `ignore_whitespace2`: any whitespace. -/
def wsAll (s : Str) : Str := (takeRun Char.isWhitespace s).2

/-- `parse_utility_name`: at least one character from
`[A-Za-z0-9*/@-]` (the source's `separated_by("-")` collapses into one
run because `-` is in the character set). -/
def utilityNameP (s : Str) : Option (Str × Str) :=
  runAtLeast1 (fun c => c.isAlphanum || c = '*' || c = '/' || c = '@' || c = '-') s

/-- `parse_css_data_type`, with the source's alternative order. -/
def cssDataTypeP (s : Str) : Option (ValueType × Str) :=
  match pLit "length".toList s with
  | some r => some (ValueType.length, r)
  | none =>
  match pLit "percentage".toList s with
  | some r => some (ValueType.percentage, r)
  | none =>
  match pLit "color".toList s with
  | some r => some (ValueType.color, r)
  | none =>
  match pLit "ratio".toList s with
  | some r => some (ValueType.ratioT, r)
  | none =>
  match pLit "number".toList s with
  | some r => some (ValueType.number, r)
  | none =>
  match pLit "fraction".toList s with
  | some r => some (ValueType.fr, r)
  | none =>
  match pLit "integer".toList s with
  | some r => some (ValueType.integer, r)
  | none =>
  match pLit "absolute-size".toList s with
  | some r => some (ValueType.absoluteSize, r)
  | none =>
  match pLit "angle".toList s with
  | some r => some (ValueType.angle, r)
  | none =>
  match pLit "any".toList s with
  | some r => some (ValueType.anyT, r)
  | none =>
  match pLit "position".toList s with
  | some r => some (ValueType.position, r)
  | none =>
  match pLit "*".toList s with
  | some r => some (ValueType.anyT, r)
  | none => none

/-- `parse_literal`: a double-quoted string. -/
def literalP (s : Str) : Option (Str × Str) :=
  match s with
  | '"' :: rest =>
    let r := takeRun (fun c => !(c = '"')) rest
    match r.2 with
    | '"' :: rest2 => some (r.1, rest2)
    | _ => none
  | _ => none

/-- `parse_value_param`: a `--VAR-*` theme template (at least one `*`;
the key keeps the other characters, `insert_at` is the offset of the last
`*`), a type name, a bracketed type, or a quoted literal. -/
def valueParamP (s : Str) : Option (ValueUsage × Str) :=
  match pLit "--".toList s with
  | some rest =>
    let r := takeRun (fun c => c.isAlphanum || c = '-' || c = '*') rest
    if r.1.contains '*' then
      match rfindIdxOpt (fun c => c = '*') r.1 with
      | some i => some (ValueUsage.var (r.1.filter (fun c => !(c = '*'))) i, r.2)
      | none => none
    else none
  | none =>
  match cssDataTypeP s with
  | some (t, rest) => some (ValueUsage.typeU t, rest)
  | none =>
  match s with
  | '[' :: rest =>
    match cssDataTypeP rest with
    | some (t, rest2) =>
      match rest2 with
      | ']' :: rest3 => some (ValueUsage.arbType t, rest3)
      | _ => none
    | none => none
  | _ =>
  match literalP s with
  | some (l, rest) => some (ValueUsage.literal l, rest)
  | none => none

/-- The `, PARAM` tail of a `--value(...)` parameter list. -/
def valueParamsTail : Nat → Str → List ValueUsage → Option (List ValueUsage × Str)
  | 0, _, _ => none
  | fuel + 1, s, acc =>
    match s with
    | ',' :: rest =>
      let rest2 := wsSpaces rest
      match valueParamP rest2 with
      | some (p, rest3) => valueParamsTail fuel rest3 (p :: acc)
      | none => none
    | _ => some (acc.reverse, s)

/-- `parse_value_call`: `--value(PARAM, PARAM, …)` (zero or more). -/
def valueCallP (s : Str) : Option (ValueCall × Str) :=
  match pLit "--value".toList s with
  | none => none
  | some rest =>
    match rest with
    | '(' :: rest2 =>
      match valueParamP rest2 with
      | some (p, rest3) =>
        match valueParamsTail (rest3.length + 1) rest3 [p] with
        | some (ps, rest4) =>
          match rest4 with
          | ')' :: rest5 => some (⟨ps⟩, rest5)
          | _ => none
        | none => none
      | none =>
        match rest2 with
        | ')' :: rest3 => some (⟨[]⟩, rest3)
        | _ => none
    | _ => none

/-- `RawParsedCodePart` from `config_css.rs`. -/
inductive RawPart where
  | chr (c : Char)
  | vc (c : ValueCall)
  | prop (p : Property)

deriving DecidableEq

/-- `parse_braces_into_string` (the same grammar as
`nested_braces_parser`): a balanced parenthesized group rendered *with*
its outer parentheses. -/
def bracesIntoStringP (fuel : Nat) (s : Str) : Option (Str × Str) :=
  match nestedParensP fuel s with
  | some (inner, rest) => some ('(' :: inner ++ [')'], rest)
  | none => none

/-- The default-value run of `@tw-property`: parenthesized groups or
single characters, stopping before `;` or whitespace; at least one. -/
def twPropValueP : Nat → Str → Str → Option (Str × Str)
  | 0, _, _ => none
  | fuel + 1, s, acc =>
    match s with
    | [] => if acc.isEmpty then none else some (acc, s)
    | c :: rest =>
      if c = ';' || c.isWhitespace then
        if acc.isEmpty then none else some (acc, s)
      else if c = '(' then
        match bracesIntoStringP (s.length + 1) s with
        | some (grp, rest2) => twPropValueP fuel rest2 (acc ++ grp)
        | none => none
      else twPropValueP fuel rest (acc ++ [c])

/-- `@tw-property NAME [DEFAULT] [SYNTAX]` (the `;` is left to the
enclosing body text). -/
def twPropertyP (s : Str) : Option (Property × Str) :=
  match pLit "@tw-property".toList s with
  | none => none
  | some rest =>
    let rest := wsAll rest
    match runAtLeast1 (fun c => !c.isWhitespace && !(c = ';')) rest with
    | none => none
    | some (name, rest2) =>
      let rest3 := wsAll rest2
      let (dflt, rest4) :=
        match twPropValueP (rest3.length + 1) rest3 [] with
        | some (v, r) => (some v, r)
        | none => (none, rest3)
      let rest5 := wsAll rest4
      let (syn, rest6) :=
        match runAtLeast1 (fun c => !c.isWhitespace && !(c = ';')) rest5 with
        | some (v, r) => (some v, r)
        | none => (none, rest5)
      some (⟨name, dflt, syn⟩, rest6)

/-- `parse_utility_text`: the body of a `@utility` block up to its
closing brace — `@tw-property` declarations, nested brace blocks
(kept literally), `--value(...)` calls, and plain characters. -/
def utilityTextP : Nat → Str → Option (List RawPart × Str)
  | 0, _ => none
  | fuel + 1, s =>
    match s with
    | [] => none
    | c :: rest =>
      if c = cbrC then some ([], rest)
      else
        match twPropertyP s with
        | some (p, rest2) =>
          match utilityTextP fuel rest2 with
          | some (ps, r) => some (RawPart.prop p :: ps, r)
          | none => none
        | none =>
          if c = obrC then
            match utilityTextP fuel rest with
            | some (inner, rest2) =>
              match utilityTextP fuel rest2 with
              | some (ps, r) =>
                some (RawPart.chr obrC :: inner ++ RawPart.chr cbrC :: ps, r)
              | none => none
            | none => none
          else
            match valueCallP s with
            | some (vcv, rest2) =>
              match utilityTextP fuel rest2 with
              | some (ps, r) => some (RawPart.vc vcv :: ps, r)
              | none => none
            | none =>
              match utilityTextP fuel rest with
              | some (ps, r) => some (RawPart.chr c :: ps, r)
              | none => none

/-- The fold of `parse_utility`: coalesce characters into `String` parts,
collect properties, and strip a trailing `-*` from the name. -/
def buildUtility (name : Str) (content : List RawPart) : Utility :=
  let step := content.foldl
    (fun (st : List ParsedCodePart × Str × List Property) c =>
      match c with
      | RawPart.chr ch => (st.1, st.2.1 ++ [ch], st.2.2)
      | RawPart.vc e =>
        ((if st.2.1.isEmpty then st.1 else st.1 ++ [ParsedCodePart.str st.2.1]) ++
          [ParsedCodePart.valueCall e], [], st.2.2)
      | RawPart.prop p => (st.1, st.2.1, st.2.2 ++ [p]))
    ([], [], [])
  let parts :=
    if step.2.1.isEmpty then step.1 else step.1 ++ [ParsedCodePart.str step.2.1]
  let has_value := "-*".toList.isSuffixOf name
  { name := if has_value then name.dropLast.dropLast else name
    parts := parts
    has_value := has_value
    properties := step.2.2 }

/-- `parse_utility`: `@utility NAME { BODY }`. -/
def utilityDeclP (s : Str) : Option (Utility × Str) :=
  match pLit "@utility".toList s with
  | none => none
  | some rest =>
    let rest := wsSpaces rest
    match utilityNameP rest with
    | none => none
    | some (name, rest2) =>
      let rest3 := wsSpaces rest2
      match rest3 with
      | c :: rest4 =>
        if c = obrC then
          match utilityTextP (rest4.length + 1) rest4 with
          | some (content, rest5) => some (buildUtility name content, rest5)
          | none => none
        else none
      | [] => none

/-- `VariantParseUnit`. -/
inductive VUnit where
  | tgt
  | chr (c : Char)

deriving DecidableEq

/-- `variant_rec_text`: the body of a long-form `@custom-variant` block —
nested brace blocks kept literally, `@slot;` markers recorded as
targets.  The argument starts after the opening brace. -/
def variantBodyP : Nat → Str → Option (List VUnit × Str)
  | 0, _ => none
  | fuel + 1, s =>
    match s with
    | [] => none
    | c :: rest =>
      if c = cbrC then some ([], rest)
      else if c = obrC then
        match variantBodyP fuel rest with
        | some (inner, rest2) =>
          match variantBodyP fuel rest2 with
          | some (us, r) => some (VUnit.chr obrC :: inner ++ VUnit.chr cbrC :: us, r)
          | none => none
        | none => none
      else if "@slot;".toList.isPrefixOf s then
        match variantBodyP fuel (s.drop 6) with
        | some (us, r) => some (VUnit.tgt :: us, r)
        | none => none
      else
        match variantBodyP fuel rest with
        | some (us, r) => some (VUnit.chr c :: us, r)
        | none => none

/-- Build a long-form `Variant` from the parsed units: the body is the
character content, the target the position of the last `@slot;` marker
(the source folds the absolute span offsets; on ASCII input that is the
same position). -/
def buildVariant (name : Str) (units : List VUnit) : Option Variant :=
  let step := units.foldl
    (fun (st : Str × Option Nat) u =>
      match u with
      | VUnit.chr c => (st.1 ++ [c], st.2)
      | VUnit.tgt => (st.1, some st.1.length))
    ([], none)
  match step.2 with
  | some t => some ⟨name, step.1, t, false⟩
  | none => none

/-- `variant_parser`: the long form `@custom-variant NAME { … @slot; … }`
or the short form `@custom-variant NAME ( SELECTOR );` (stored body
`SELECTOR {\n\n}` with the target at `len(SELECTOR)+2`). -/
def variantDeclP (s : Str) : Option (Variant × Str) :=
  match pLit "@custom-variant".toList s with
  | none => none
  | some rest =>
    let rest := wsAll rest
    match utilityNameP rest with
    | none => none
    | some (name, rest2) =>
      let rest3 := wsAll rest2
      match rest3 with
      | c :: rest4 =>
        if c = obrC then
          match variantBodyP (rest4.length + 1) rest4 with
          | some (units, rest5) =>
            match buildVariant name units with
            | some v => some (v, rest5)
            | none => none
          | none => none
        else if c = '(' then
          match nestedParensBody (rest4.length + 1) rest4 [] with
          | some (content, rest5) =>
            match rest5 with
            | ';' :: rest6 =>
              some (⟨name, content ++ [' ', obrC, '\n', '\n', cbrC],
                     content.length + 2, true⟩, rest6)
            | _ => none
          | none => none
        else none
      | [] => none

/-- `parse_var`: `--NAME: VALUE;` inside `@theme`. -/
def themeVarP (s : Str) : Option ((Str × Str) × Str) :=
  match pLit "--".toList s with
  | none => none
  | some rest =>
    match runAtLeast1 (fun c => c.isAlphanum || c = '-') rest with
    | none => none
    | some (name, rest2) =>
      let rest3 := wsSpaces rest2
      match rest3 with
      | ':' :: rest4 =>
        let rest5 := wsSpaces rest4
        match runAtLeast1
            (fun c => !(c = ';') && (c = ' ' || !c.isWhitespace)) rest5 with
        | none => none
        | some (v, rest6) =>
          match rest6 with
          | ';' :: rest7 => some ((name, v), rest7)
          | _ => none
      | _ => none

/-- `keyframes_text_parser`: a balanced brace block, rendered with its
braces; nested blocks likewise.  The argument starts after the opening
brace. -/
def keyframesBodyP : Nat → Str → Str → Option (Str × Str)
  | 0, _, _ => none
  | fuel + 1, s, acc =>
    match s with
    | [] => none
    | c :: rest =>
      if c = cbrC then some (acc, rest)
      else if c = obrC then
        match keyframesBodyP fuel rest [] with
        | some (inner, rest2) =>
          keyframesBodyP fuel rest2 (acc ++ obrC :: inner ++ [cbrC])
        | none => none
      else keyframesBodyP fuel rest (acc ++ [c])

/-- `parse_keyframes`: `@keyframes NAME { … }`. -/
def keyframesDeclP (s : Str) : Option ((Str × Str) × Str) :=
  match pLit "@keyframes".toList s with
  | none => none
  | some rest =>
    let rest := wsAll rest
    match utilityNameP rest with
    | none => none
    | some (name, rest2) =>
      let rest3 := wsAll rest2
      match rest3 with
      | c :: rest4 =>
        if c = obrC then
          match keyframesBodyP (rest4.length + 1) rest4 [] with
          | some (body, rest5) =>
            some ((name, obrC :: body ++ [cbrC]), rest5)
          | none => none
        else none
      | [] => none

/-- One `@theme` item: a variable or a keyframes block, `padded` by
whitespace (no consumption on failure). -/
def themeItemP (s : Str) : Option ((Str × Str) ⊕ (Str × Str)) × Str :=
  let s2 := wsAll s
  match themeVarP s2 with
  | some (v, rest) => (some (Sum.inl v), wsAll rest)
  | none =>
    match keyframesDeclP s2 with
    | some (k, rest) => (some (Sum.inr k), wsAll rest)
    | none => (none, s)

/-- The repeated `@theme` items. -/
def themeItemsP : Nat → Str → List ((Str × Str) ⊕ (Str × Str)) →
    List ((Str × Str) ⊕ (Str × Str)) × Str
  | 0, s, acc => (acc.reverse, s)
  | fuel + 1, s, acc =>
    match themeItemP s with
    | (some item, rest) => themeItemsP fuel rest (item :: acc)
    | (none, _) => (acc.reverse, s)

/-- `parse_theme`: `@theme { (VAR | KEYFRAMES)* }`, folded into a `Theme`
with insert (last writer wins). -/
def themeDeclP (s : Str) : Option (Theme × Str) :=
  match pLit "@theme".toList s with
  | none => none
  | some rest =>
    let rest := wsSpaces rest
    match rest with
    | c :: rest2 =>
      if c = obrC then
        let rest3 := wsAll rest2
        let items := themeItemsP (rest3.length + 1) rest3 []
        let rest4 := wsAll items.2
        match rest4 with
        | c2 :: rest5 =>
          if c2 = cbrC then
            let th := items.1.foldl
              (fun (t : Theme) item =>
                match item with
                | Sum.inl (n, v) => { t with vars := hmInsert t.vars n v }
                | Sum.inr (n, v) => { t with keyframes := hmInsert t.keyframes n v })
              ⟨[], []⟩
            some (th, wsAll rest5)
          else none
        | [] => none
      else none
    | [] => none

/-- `ConfigUnit`. -/
inductive ConfigUnit where
  | utility (u : Utility)
  | variant (v : Variant)
  | theme (t : Theme)

deriving DecidableEq

/-- `UserConfig`. -/
structure UserConfig where
  utilities : List Utility
  variants : List Variant
  themes : List Theme

deriving DecidableEq

/-- One `padded` top-level declaration; no consumption on failure. -/
def configUnitP (s : Str) : Option ConfigUnit × Str :=
  let s2 := wsAll s
  match utilityDeclP s2 with
  | some (u, rest) => (some (ConfigUnit.utility u), wsAll rest)
  | none =>
    match variantDeclP s2 with
    | some (v, rest) => (some (ConfigUnit.variant v), wsAll rest)
    | none =>
      match themeDeclP s2 with
      | some (t, rest) => (some (ConfigUnit.theme t), wsAll rest)
      | none => (none, s)

/-- The repeated top-level declarations. -/
def configUnitsP : Nat → Str → List ConfigUnit → List ConfigUnit × Str
  | 0, s, acc => (acc.reverse, s)
  | fuel + 1, s, acc =>
    match configUnitP s with
    | (some u, rest) => configUnitsP fuel rest (u :: acc)
    | (none, _) => (acc.reverse, s)

/-- `config_parser().parse(s)`: the declarations in order, succeeding
only when the whole text is consumed (an ill-formed declaration therefore
rejects the entire configuration). -/
def configParse (s : Str) : Option UserConfig :=
  let r := configUnitsP (s.length + 1) s []
  if r.2.isEmpty then
    some (r.1.foldl
      (fun (cfg : UserConfig) u =>
        match u with
        | ConfigUnit.utility x => { cfg with utilities := cfg.utilities ++ [x] }
        | ConfigUnit.variant x => { cfg with variants := cfg.variants ++ [x] }
        | ConfigUnit.theme x => { cfg with themes := cfg.themes ++ [x] })
      ⟨[], [], []⟩)
  else none

/-- `EmitEnv::load_config`: on a successful parse extend the utilities,
variants and theme (vars and keyframes merge with last-writer-wins) and
return `true`; on any parse error leave the environment unchanged and
return `false`. -/
def loadConfig (env : EmitEnv) (s : Str) : EmitEnv × Bool :=
  match configParse s with
  | some cfg =>
    ({ env with
        utilities := env.utilities ++ cfg.utilities,
        variants := env.variants ++ cfg.variants,
        theme := cfg.themes.foldl
          (fun (t : Theme) th =>
            { vars := th.vars.foldl (fun m p => hmInsert m p.1 p.2) t.vars,
              keyframes := th.keyframes.foldl (fun m p => hmInsert m p.1 p.2)
                t.keyframes })
          env.theme },
     true)
  | none => (env, false)

/-- `EmitEnv::new()`: the empty environment. -/
def envNew : EmitEnv := ⟨[], [], [], ⟨[], []⟩, [], []⟩

/-- A well-formed `@utility` declaration. -/
def cfgGoodDecl : Str := "@utility foo \x7b\ncolor: red;\n\x7d".toList

/-- The same declaration followed by an ill-formed one (`???`). -/
def cfgBadC7 : Str := "@utility foo \x7b\ncolor: red;\n\x7d ???".toList

/-! ## Theorems -/

theorem escape_flatMap (s : Str) :
    escape_string_for_css s =
      s.flatMap (fun c => if is_valid_css_char c then [c] else ['\\', c]) := by
  induction s with
  | nil => rfl
  | cons c cs ih =>
    simp only [escape_string_for_css, List.flatMap_cons, ih]
    by_cases h : is_valid_css_char c <;> simp [h]

theorem escape_sublist (s : Str) : s.Sublist (escape_string_for_css s) := by
  induction s with
  | nil => simp [escape_string_for_css]
  | cons c cs ih =>
    simp only [escape_string_for_css]
    by_cases h : is_valid_css_char c
    · simpa [h] using ih.cons₂ c
    · simp only [h, Bool.not_false, if_pos rfl]
      exact (ih.cons₂ c).cons '\\'

theorem backslash_not_valid : is_valid_css_char '\\' = false := by decide

theorem unescape_escape (s : Str) : unescapeCss (escape_string_for_css s) = s := by
  induction s with
  | nil => rfl
  | cons c cs ih =>
    simp only [escape_string_for_css]
    by_cases h : is_valid_css_char c
    · have hc : ¬c = '\\' := by
        intro he
        rw [he, backslash_not_valid] at h
        exact Bool.false_ne_true h
      rw [show (if !is_valid_css_char c then '\\' :: [c] else [c]) = [c] by simp [h]]
      rw [List.singleton_append, unescapeCss.eq_def]; simp only [if_neg hc, ih]
    · rw [show (if !is_valid_css_char c then '\\' :: [c] else [c]) = ['\\', c] by simp [h]]
      rw [List.cons_append, List.singleton_append, unescapeCss.eq_def]; simp only [if_pos rfl]
      simp [ih]

/-- The characterization the claim states for the insertion condition:
`¬ is_valid_css_char c` is exactly "ASCII but not alphanumeric, `-` or `_`". -/
theorem valid_char_spec (c : Char) :
    is_valid_css_char c = false ↔
      (isAsciiChar c = true ∧
        ¬(c.isDigit = true ∨ c.isUpper = true ∨ c.isLower = true ∨ c = '-' ∨ c = '_')) := by
  unfold is_valid_css_char
  cases hA : isAsciiChar c <;> cases hD : c.isDigit <;> cases hU : c.isUpper <;>
    cases hL : c.isLower <;> by_cases h1 : c = '-' <;> by_cases h2 : c = '_' <;>
      simp [hA, hD, hU, hL, h1, h2]

/-- C9.  `escape_string_for_css` equals the input with a single backslash
inserted immediately before each character that is ASCII but not
alphanumeric, `-` or `_` (alphanumerics, `-`, `_` and non-ASCII characters
pass through unchanged); the input's characters appear in order in the
output, and deleting the inserted backslashes recovers the input exactly. -/
theorem c9_escape_round_trip (s : Str) :
    escape_string_for_css s =
      s.flatMap (fun c =>
        if isAsciiChar c = true ∧
            ¬(c.isDigit = true ∨ c.isUpper = true ∨ c.isLower = true ∨ c = '-' ∨ c = '_')
        then ['\\', c] else [c]) ∧
    s.Sublist (escape_string_for_css s) ∧
    unescapeCss (escape_string_for_css s) = s := by
  refine ⟨?_, escape_sublist s, unescape_escape s⟩
  rw [escape_flatMap]
  apply List.flatMap_congr
  intro c _
  by_cases h : isAsciiChar c = true ∧
      ¬(c.isDigit = true ∨ c.isUpper = true ∨ c.isLower = true ∨ c = '-' ∨ c = '_')
  · rw [if_pos h, (valid_char_spec c).mpr h]
    simp
  · have hv : is_valid_css_char c = true := by
      cases hval : is_valid_css_char c
      · exact absurd ((valid_char_spec c).mp hval) h
      · rfl
    rw [if_neg h, hv]
    simp

theorem boundaryAdvance_ge (txt : List Nat) (i : Nat) : i ≤ boundaryAdvance txt i := by
  rw [boundaryAdvance]
  split
  · have := boundaryAdvance_ge txt (i + 1)
    omega
  · exact Nat.le_refl i
termination_by txt.length - i
decreasing_by omega

theorem scanStep_gt (oracle : Nat → Option Nat) (txt : List Nat) (i : Nat) :
    i < scanStep oracle txt i := by
  unfold scanStep
  cases h : oracle i with
  | none =>
    simp only [h]
    exact Nat.lt_of_lt_of_le (Nat.lt_succ_self i) (boundaryAdvance_ge txt (i + 1))
  | some skip =>
    simp only [h]
    exact Nat.lt_of_lt_of_le (by omega) (boundaryAdvance_ge txt (i + skip + 1))

/-- C10.  `parse_full_string` terminates on every input and for every
behaviour of the prefix match and of `parse_tailwind_str` (any skip
values): each loop iteration strictly increases the byte index, and fuel
`txt.length - i` always suffices for the loop condition to fail. -/
theorem scanRun_enough (oracle : Nat → Option Nat) (txt : List Nat) :
    ∀ fuel i, txt.length - i ≤ fuel → scanRun oracle txt fuel i = some () := by
  intro fuel
  induction fuel with
  | zero =>
    intro i hi
    rw [scanRun]
    have : ¬i < txt.length := by omega
    simp [this]
  | succ n ih =>
    intro i hi
    rw [scanRun]
    by_cases h : i < txt.length
    · have hstep := scanStep_gt oracle txt i
      have : txt.length - scanStep oracle txt i ≤ n := by omega
      simp only [h, if_pos]
      exact ih (scanStep oracle txt i) this
    · simp [h]

/-- C10.  `parse_full_string` terminates on every input and for every
behaviour of the prefix match and of `parse_tailwind_str` (any skip
values): each loop iteration strictly increases the byte index (the
prefix skip, the unconditional increment and the char-boundary adjustment
only move forward), and fuel `txt.length - i` always suffices for the
loop condition `i < txt.len()` to fail. -/
theorem c10_scan_terminates (oracle : Nat → Option Nat) (txt : List Nat) (i : Nat) :
    i < scanStep oracle txt i ∧
    scanRun oracle txt (txt.length - i) i = some () :=
  ⟨scanStep_gt oracle txt i, scanRun_enough oracle txt (txt.length - i) i (Nat.le_refl _)⟩

theorem walkBck_matched (theme : Theme) (value : Str) (lit : CssLiteral)
    (sp : Option SpecialParam) (isArb : Bool) :
    ∀ l acc r, walkBck theme value lit sp isArb l acc = some r →
      ∀ c ∈ callsBck l, (firstMatch theme value lit sp isArb c).isSome := by
  intro l
  induction l with
  | nil => intro acc r _ c hc; simp [callsBck] at hc
  | cons p rest ih =>
    intro acc r hw c hc
    cases p with
    | str s =>
      rw [callsBck] at hc
      rw [walkBck] at hw
      cases hnl : rfindIdxOpt (fun c => c = '\n') s with
      | some nl => simp [hnl] at hc
      | none =>
        simp only [hnl, Option.isSome_none, Bool.false_eq_true, if_false] at hc
        rw [hnl] at hw
        exact ih (s ++ acc) r hw c hc
    | valueCall c0 =>
      rw [callsBck] at hc
      rw [walkBck] at hw
      cases hm : firstMatch theme value lit sp isArb c0 with
      | none => rw [hm] at hw; exact absurd hw (by simp)
      | some repl =>
        rw [hm] at hw
        rcases List.mem_cons.mp hc with hceq | hcrest
        · rw [hceq, hm]; rfl
        · exact ih _ r hw c hcrest

theorem walkFwd_matched (theme : Theme) (value : Str) (lit : CssLiteral)
    (sp : Option SpecialParam) (isArb : Bool) :
    ∀ l acc r, walkFwd theme value lit sp isArb l acc = some r →
      ∀ c ∈ callsFwd l, (firstMatch theme value lit sp isArb c).isSome := by
  intro l
  induction l with
  | nil => intro acc r _ c hc; simp [callsFwd] at hc
  | cons p rest ih =>
    intro acc r hw c hc
    cases p with
    | str s =>
      rw [callsFwd] at hc
      rw [walkFwd] at hw
      cases hnl : findIdxOpt (fun c => c = '\n') s with
      | some nl => simp [hnl] at hc
      | none =>
        simp only [hnl, Option.isSome_none, Bool.false_eq_true, if_false] at hc
        rw [hnl] at hw
        exact ih (acc ++ s) r hw c hc
    | valueCall c0 =>
      rw [callsFwd] at hc
      rw [walkFwd] at hw
      cases hm : firstMatch theme value lit sp isArb c0 with
      | none => rw [hm] at hw; exact absurd hw (by simp)
      | some repl =>
        rw [hm] at hw
        rcases List.mem_cons.mp hc with hceq | hcrest
        · rw [hceq, hm]; rfl
        · exact ih _ r hw c hcrest

theorem instLoop_sound (theme : Theme) (value : Str) (lit : CssLiteral)
    (sp : Option SpecialParam) (isArb : Bool) :
    ∀ rest revPre body,
      instLoop theme value lit sp isArb revPre rest = .ok body →
      ∃ revA c restA repl back fwd,
        revA.reverse ++ ParsedCodePart.valueCall c :: restA =
          revPre.reverse ++ rest ∧
        firstMatch theme value lit sp isArb c = some repl ∧
        walkBck theme value lit sp isArb revA [] = some back ∧
        walkFwd theme value lit sp isArb restA [] = some fwd ∧
        body = back ++ repl.getD value ++ fwd := by
  intro rest
  induction rest with
  | nil => intro revPre body h; rw [instLoop.eq_def] at h; exact absurd h (by simp)
  | cons part rest' ih =>
    intro revPre body h
    rw [instLoop.eq_def] at h
    have hshift : (part :: revPre).reverse ++ rest' = revPre.reverse ++ part :: rest' := by
      simp
    cases part with
    | str s =>
      dsimp only at h
      obtain ⟨revA, c, restA, repl, back, fwd, heq, h2, h3, h4, h5⟩ :=
        ih (ParsedCodePart.str s :: revPre) body h
      exact ⟨revA, c, restA, repl, back, fwd, heq.trans hshift, h2, h3, h4, h5⟩
    | valueCall call =>
      dsimp only at h
      cases hm : firstMatch theme value lit sp isArb call with
      | none =>
        rw [hm] at h
        obtain ⟨revA, c, restA, repl, back, fwd, heq, h2, h3, h4, h5⟩ :=
          ih (ParsedCodePart.valueCall call :: revPre) body h
        exact ⟨revA, c, restA, repl, back, fwd, heq.trans hshift, h2, h3, h4, h5⟩
      | some repl0 =>
        rw [hm] at h
        cases hb : walkBck theme value lit sp isArb revPre [] with
        | none =>
          rw [hb] at h
          obtain ⟨revA, c, restA, repl, back, fwd, heq, h2, h3, h4, h5⟩ :=
            ih (ParsedCodePart.valueCall call :: revPre) body h
          exact ⟨revA, c, restA, repl, back, fwd, heq.trans hshift, h2, h3, h4, h5⟩
        | some back =>
          rw [hb] at h
          cases hf : walkFwd theme value lit sp isArb rest' [] with
          | none =>
            rw [hf] at h
            obtain ⟨revA, c, restA, repl, back2, fwd, heq, h2, h3, h4, h5⟩ :=
              ih (ParsedCodePart.valueCall call :: revPre) body h
            exact ⟨revA, c, restA, repl, back2, fwd, heq.trans hshift, h2, h3, h4, h5⟩
          | some fwd =>
            rw [hf] at h
            refine ⟨revPre, call, rest', repl0, back, fwd, rfl, hm, hb, hf, ?_⟩
            cases h
            rfl

/-- C1.  Line-suppression soundness of `Utility::instantiate`: whenever
instantiation of a value-taking template succeeds, the returned body is
exactly the template line of some matched `--value` call — the walk back
and the walk forward to the nearest newlines, with the anchor's
replacement in the middle and every sibling `--value` call on that line
substituted with its own replacement — and every `--value(...)` call on
that line (backwards and forwards up to the nearest newline) is satisfied
by the candidate. -/
theorem c1_line_suppression (u : Utility) (theme : Theme) (value : Str)
    (sp : Option SpecialParam) (isArb : Bool) (body : Str)
    (hv : u.has_value = true)
    (h : u.instantiate theme (some value) sp isArb = .ok body) :
    ∃ pre c rest repl back fwd,
      u.parts = pre ++ ParsedCodePart.valueCall c :: rest ∧
      firstMatch theme value ((classify value).getD (.other value)) sp isArb c =
        some repl ∧
      walkBck theme value ((classify value).getD (.other value)) sp isArb
        pre.reverse [] = some back ∧
      walkFwd theme value ((classify value).getD (.other value)) sp isArb
        rest [] = some fwd ∧
      body = back ++ repl.getD value ++ fwd ∧
      (∀ c' ∈ callsBck pre.reverse,
        (firstMatch theme value ((classify value).getD (.other value)) sp isArb
          c').isSome) ∧
      (∀ c' ∈ callsFwd rest,
        (firstMatch theme value ((classify value).getD (.other value)) sp isArb
          c').isSome) := by
  rw [Utility.instantiate, hv] at h
  simp only [if_pos] at h
  obtain ⟨revA, c, restA, repl, back, fwd, heq, h2, h3, h4, h5⟩ :=
    instLoop_sound theme value ((classify value).getD (.other value)) sp isArb
      u.parts [] body h
  refine ⟨revA.reverse, c, restA, repl, back, fwd, ?_, h2, ?_, h4, h5, ?_, ?_⟩
  · simp only [List.reverse_nil, List.nil_append] at heq
    exact heq.symm
  · rw [List.reverse_reverse]; exact h3

  · rw [List.reverse_reverse]
    exact walkBck_matched theme value _ sp isArb revA [] back h3
  · exact walkFwd_matched theme value _ sp isArb restA [] fwd h4

theorem c1_line_suppression_witness :
    uC1.has_value = true ∧
    uC1.instantiate thEmpty (some "x".toList) none false = .ok "a: x;".toList ∧
    (∃ pre c rest repl back fwd,
      uC1.parts = pre ++ ParsedCodePart.valueCall c :: rest ∧
      firstMatch thEmpty "x".toList
        ((classify "x".toList).getD (.other "x".toList)) none false c = some repl ∧
      walkBck thEmpty "x".toList
        ((classify "x".toList).getD (.other "x".toList)) none false
        pre.reverse [] = some back ∧
      walkFwd thEmpty "x".toList
        ((classify "x".toList).getD (.other "x".toList)) none false
        rest [] = some fwd ∧
      "a: x;".toList = back ++ repl.getD "x".toList ++ fwd ∧
      (∀ c' ∈ callsBck pre.reverse,
        (firstMatch thEmpty "x".toList
          ((classify "x".toList).getD (.other "x".toList)) none false c').isSome) ∧
      (∀ c' ∈ callsFwd rest,
        (firstMatch thEmpty "x".toList
          ((classify "x".toList).getD (.other "x".toList)) none false c').isSome)) :=
  ⟨rfl, by decide,
   c1_line_suppression uC1 thEmpty "x".toList none false "a: x;".toList rfl (by decide)⟩

/-- C6 (counterexample).  `insert_alpha` maps the arbitrary 3-digit hex
color `#abc` with the `100` modifier to `#aabbccFF`, not to the
`#AABBCCFF` the claim states: `expand_3_digit_hex` duplicates the input
digits preserving their case, only the alpha byte is upper-case. -/
theorem c6_hex_alpha_counterexample :
    insert_alpha "#abc".toList "100%".toList = some "#aabbccFF".toList ∧
    "#aabbccFF".toList ≠ "#AABBCCFF".toList := by
  refine ⟨by decide, by decide⟩

/-- C6 (amended).  For `bg-[#abc]/100` the alpha post-processing yields
`#aabbccFF`: the 3-digit hex is expanded to 6 digits by doubling each
digit (case preserved) and the 100% alpha byte `FF` is appended. -/
theorem c6_hex_alpha_expand :
    insert_alpha "#abc".toList "100%".toList =
      some ('#' :: expand_3_digit_hex "abc".toList ++ "FF".toList) ∧
    expand_3_digit_hex "abc".toList = "aabbcc".toList := by
  refine ⟨by decide, by decide⟩

theorem phaseA_fst (theme : Theme) (full : Str) (sp : Option SpecialParam) :
    ∀ (utilities : List Utility) (acc : Option Str × List Property),
      (resolvePhaseA theme full sp utilities acc).1 =
        lastSomeFrom (utilities.map (attemptA theme full sp)) acc.1 := by
  intro utilities
  induction utilities with
  | nil => intro acc; rfl
  | cons u us ih =>
    intro acc
    have h1 : resolvePhaseA theme full sp (u :: us) acc =
        resolvePhaseA theme full sp us
          (if u.name == full && !u.has_value then
            match u.instantiate theme none sp false with
            | .ok res => (some res, acc.2 ++ u.properties)
            | .error _ => acc
          else acc) := rfl
    have h2 : lastSomeFrom ((u :: us).map (attemptA theme full sp)) acc.1 =
        lastSomeFrom (us.map (attemptA theme full sp))
          (match attemptA theme full sp u with
           | some r => some r
           | none => acc.1) := rfl
    rw [h1, ih, h2]
    congr 1
    by_cases hg : (u.name == full && !u.has_value) = true
    · cases hins : u.instantiate theme none sp false <;>
        simp [attemptA, hg, hins, resOpt]
    · simp [attemptA, hg, Bool.not_eq_true] at *

theorem phaseB_fst (theme : Theme) (full : Str) (sp : Option SpecialParam) :
    ∀ (utilities : List Utility) (acc : Option Str × List Property),
      (resolvePhaseB theme full sp utilities acc).1 =
        lastSomeFrom (utilities.map (attemptB theme full sp)) acc.1 := by
  intro utilities
  induction utilities with
  | nil => intro acc; rfl
  | cons u us ih =>
    intro acc
    have h1 : resolvePhaseB theme full sp (u :: us) acc =
        resolvePhaseB theme full sp us
          (if u.has_value && u.name.isPrefixOf full &&
              decide (u.name.length < full.length) then
            match u.instantiate theme (some (full.drop (u.name.length + 1))) sp false with
            | .ok res => (some res, acc.2 ++ u.properties)
            | .error _ => acc
          else acc) := rfl
    have h2 : lastSomeFrom ((u :: us).map (attemptB theme full sp)) acc.1 =
        lastSomeFrom (us.map (attemptB theme full sp))
          (match attemptB theme full sp u with
           | some r => some r
           | none => acc.1) := rfl
    rw [h1, ih, h2]
    congr 1
    by_cases hg : (u.has_value && u.name.isPrefixOf full &&
        decide (u.name.length < full.length)) = true
    · cases hins : u.instantiate theme (some (full.drop (u.name.length + 1))) sp false <;>
        simp [attemptB, hg, hins, resOpt]
    · simp [attemptB, hg, Bool.not_eq_true] at *

theorem phaseC_fst (theme : Theme) (preStr lastStr : Str) (sp : Option SpecialParam) :
    ∀ (utilities : List Utility) (acc : Option Str × List Property),
      (resolvePhaseC theme preStr lastStr sp utilities acc).1 =
        lastSomeFrom (utilities.map (attemptC theme preStr lastStr sp)) acc.1 := by
  intro utilities
  induction utilities with
  | nil => intro acc; rfl
  | cons u us ih =>
    intro acc
    have h1 : resolvePhaseC theme preStr lastStr sp (u :: us) acc =
        resolvePhaseC theme preStr lastStr sp us
          (if u.name == preStr && u.has_value then
            match u.instantiate theme (some lastStr) sp false with
            | .ok res => (some res, acc.2 ++ u.properties)
            | .error _ => acc
          else acc) := rfl
    have h2 : lastSomeFrom ((u :: us).map (attemptC theme preStr lastStr sp)) acc.1 =
        lastSomeFrom (us.map (attemptC theme preStr lastStr sp))
          (match attemptC theme preStr lastStr sp u with
           | some r => some r
           | none => acc.1) := rfl
    rw [h1, ih, h2]
    congr 1
    by_cases hg : (u.name == preStr && u.has_value) = true
    · cases hins : u.instantiate theme (some lastStr) sp false <;>
        simp [attemptC, hg, hins, resOpt]
    · simp [attemptC, hg, Bool.not_eq_true] at *

theorem lastSomeFrom_append (l1 l2 : List (Option Str)) (init : Option Str) :
    lastSomeFrom (l1 ++ l2) init = lastSomeFrom l2 (lastSomeFrom l1 init) :=
  List.foldl_append ..

/-- C2 (amended).  Name resolution tries (a) exact `has_value=false`
matches, then (b) `has_value=true` proper-prefix matches, then (c)
`has_value=true` matches of the name without the last segment, over all
templates in declaration order and without stopping; every successful
instantiation overwrites the body, so the emitted body is that of the
*last* successful attempt in this order (emptiness of the body is not
checked). -/
theorem c2_resolution_last_wins (theme : Theme) (full preStr lastStr : Str)
    (sp : Option SpecialParam) (utilities : List Utility) :
    (resolveBody theme full preStr lastStr sp utilities).1 =
      lastSomeFrom
        (utilities.map (attemptA theme full sp) ++
         utilities.map (attemptB theme full sp) ++
         utilities.map (attemptC theme preStr lastStr sp)) none := by
  unfold resolveBody
  rw [phaseC_fst, phaseB_fst, phaseA_fst, lastSomeFrom_append, lastSomeFrom_append]

/-- C2 (counterexample).  With the templates `uFirst` then `uSecond` and
the token segments `foo`/`bar`, both templates instantiate successfully
(in phases (b) and (c)); the code emits the *last* successful body
`second: bar`, while the claim's "first template that yields a non-empty
body" would emit `first: bar`. -/
theorem c2_resolution_counterexample :
    (resolveBody thEmpty "foo-bar".toList "foo".toList "bar".toList none
      [uFirst, uSecond]).1 = some "second: bar".toList ∧
    firstSome
      ([uFirst, uSecond].map (attemptA thEmpty "foo-bar".toList none) ++
       [uFirst, uSecond].map (attemptB thEmpty "foo-bar".toList none) ++
       [uFirst, uSecond].map (attemptC thEmpty "foo".toList "bar".toList none)) =
      some "first: bar".toList ∧
    "second: bar".toList ≠ "first: bar".toList := by
  refine ⟨by decide, by decide, by decide⟩

/-- C3.  The dedup check looks the *unprefixed* escaped class name up in
`defs_generated` but records the *prefixed* name: submitting `tw-foo`
twice with prefix `tw-` records two rules whose class names are both
`tw-foo`, so the recorded rules do not carry pairwise-distinct class
names (`defs_generated` itself, a `HashSet`, stays duplicate-free). -/
theorem c3_prefix_dedup_eval :
    ((parseTailwindStr
        (parseTailwindStr envFoo (some "tw-".toList) "tw-foo".toList).1
        (some "tw-".toList) "tw-foo".toList).1.defs.map
          (fun d => d.class_name)) =
      ["tw-foo".toList, "tw-foo".toList] ∧
    ¬ ((parseTailwindStr
        (parseTailwindStr envFoo (some "tw-".toList) "tw-foo".toList).1
        (some "tw-".toList) "tw-foo".toList).1.defs.map
          (fun d => d.class_name)).Nodup ∧
    (parseTailwindStr
        (parseTailwindStr envFoo (some "tw-".toList) "tw-foo".toList).1
        (some "tw-".toList) "tw-foo".toList).1.defs_generated =
      ["tw-foo".toList] := by
  refine ⟨by decide, by decide, by decide⟩

/-- C4.  For `not-supports-[display:grid]:foo` the engine wraps the body
in `@supports (not supports-)`: the guard pins `v[1]` to the segment
`supports`, the `Raw` branch then inspects `v[1]` (not `v[2]`) and is
dead, and the joined condition maps the bracketed segment to the empty
string — not the claimed `@supports (not display:grid)`. -/
theorem c4_not_supports_eval :
    (parseTailwindStr envFoo none "not-supports-[display:grid]:foo".toList).2 =
      some (⟨[], escape_string_for_css "not-supports-[display:grid]:foo".toList,
        "@supports (not supports-) \x7b\ncolor: red;\n\x7d".toList⟩, 31) ∧
    "@supports (not supports-) \x7b\ncolor: red;\n\x7d".toList ≠
      "@supports (not display:grid) \x7b\ncolor: red;\n\x7d".toList := by
  refine ⟨by decide, by decide⟩

/-- C5.  The `aria` variant *replaces* the rule body with the bare
selector string `&[aria-busy="true"]` — the wrapped declarations are
discarded, not wrapped as the claim states — and a named key outside the
boolean list (e.g. `aria-label`) yields no rule at all instead of
`&[aria-label] body`. -/
theorem c5_aria_eval :
    (parseTailwindStr envFoo none "aria-busy:foo".toList).2 =
      some (⟨[], escape_string_for_css "aria-busy:foo".toList,
        "&[aria-busy=\"true\"]".toList⟩, 13) ∧
    "&[aria-busy=\"true\"]".toList ≠
      blockWrap "&[aria-busy=\"true\"]".toList "color: red;".toList ∧
    (parseTailwindStr envFoo none "aria-label:foo".toList).2 = none := by
  refine ⟨by decide, by decide, by decide⟩

/-- C8 (counterexample).  The token `zzz:bar` fails (unknown variant
`zzz`), yet the `@property` declaration of the successfully instantiated
template `bar` has already been appended to `custom_properties`: the
environment is not left unchanged on a failed token. -/
theorem c8_property_leak_counterexample :
    (parseTailwindStr envBar none "zzz:bar".toList).2 = none ∧
    (parseTailwindStr envBar none "zzz:bar".toList).1.custom_properties = [pEx] ∧
    envBar.custom_properties = [] := by
  refine ⟨by decide, by decide, by decide⟩

theorem parseTailwindStrCore_cases (env : EmitEnv) (pfx : Option Str) (src : Str) :
    (∃ ps cd endN, parseTailwindStrCore env pfx src =
      ({ env with
          custom_properties := env.custom_properties ++ ps,
          defs := env.defs ++ [cd],
          defs_generated := hsInsert env.defs_generated cd.class_name },
        some (cd, endN))) ∨
    (∃ ps, parseTailwindStrCore env pfx src =
      ({ env with custom_properties := env.custom_properties ++ ps }, none)) := by
  unfold parseTailwindStrCore
  dsimp only
  split
  · right
    exact ⟨[], by simp⟩
  · split
    · right
      exact ⟨[], by simp⟩
    · split
      · right
        exact ⟨_, rfl⟩
      · split
        · right
          exact ⟨_, rfl⟩
        · left
          exact ⟨_, _, _, rfl⟩

theorem parseTailwindStr_cases (env : EmitEnv) (pfx : Option Str) (src : Str) :
    (∃ ps cd endN, parseTailwindStr env pfx src =
      ({ env with
          custom_properties := env.custom_properties ++ ps,
          defs := env.defs ++ [cd],
          defs_generated := hsInsert env.defs_generated cd.class_name },
        some (cd, endN))) ∨
    (∃ ps, parseTailwindStr env pfx src =
      ({ env with custom_properties := env.custom_properties ++ ps }, none)) := by
  unfold parseTailwindStr
  cases pfx with
  | none => exact parseTailwindStrCore_cases env none src
  | some p =>
    by_cases hp : p.isPrefixOf src
    · simp only [hp, if_pos]
      exact parseTailwindStrCore_cases env (some p) (src.drop p.length)
    · simp only [hp]
      right
      exact ⟨[], by simp⟩

/-- C8 (amended).  On a failed token, `defs`, `defs_generated`,
`utilities`, `variants` and `theme` are unchanged, but
`custom_properties` may grow: the `@property` declarations of each
template that instantiated successfully during name resolution are
appended even when a later variant failure suppresses the rule. -/
theorem c8_failed_token_state (env : EmitEnv) (pfx : Option Str) (src : Str)
    (h : (parseTailwindStr env pfx src).2 = none) :
    (parseTailwindStr env pfx src).1.defs = env.defs ∧
    (parseTailwindStr env pfx src).1.defs_generated = env.defs_generated ∧
    (parseTailwindStr env pfx src).1.utilities = env.utilities ∧
    (parseTailwindStr env pfx src).1.variants = env.variants ∧
    (parseTailwindStr env pfx src).1.theme = env.theme ∧
    ∃ ps, (parseTailwindStr env pfx src).1.custom_properties =
      env.custom_properties ++ ps := by
  rcases parseTailwindStr_cases env pfx src with ⟨ps, cd, endN, heq⟩ | ⟨ps, heq⟩
  · rw [heq] at h
    exact absurd h (by simp)
  · rw [heq]
    exact ⟨rfl, rfl, rfl, rfl, rfl, ps, rfl⟩

theorem c8_failed_token_state_witness :
    (parseTailwindStr envBar none "zzz:bar".toList).2 = none ∧
    ((parseTailwindStr envBar none "zzz:bar".toList).1.defs = envBar.defs ∧
     (parseTailwindStr envBar none "zzz:bar".toList).1.defs_generated =
       envBar.defs_generated ∧
     (parseTailwindStr envBar none "zzz:bar".toList).1.utilities = envBar.utilities ∧
     (parseTailwindStr envBar none "zzz:bar".toList).1.variants = envBar.variants ∧
     (parseTailwindStr envBar none "zzz:bar".toList).1.theme = envBar.theme ∧
     ∃ ps, (parseTailwindStr envBar none "zzz:bar".toList).1.custom_properties =
       envBar.custom_properties ++ ps) :=
  ⟨by decide, c8_failed_token_state envBar none "zzz:bar".toList (by decide)⟩

/-- C7 (counterexample).  A configuration holding a well-formed
`@utility foo` declaration next to an ill-formed one parses to nothing:
`load_config` returns `false` *and* discards the well-formed declaration
too (no utility is added), instead of discarding only the ill-formed
declaration as the claim states. -/
theorem c7_config_rejected_counterexample :
    (utilityDeclP cfgGoodDecl).isSome = true ∧
    configParse cfgBadC7 = none ∧
    loadConfig envNew cfgBadC7 = (envNew, false) ∧
    (loadConfig envNew cfgBadC7).1.utilities = [] := by
  refine ⟨by decide, by decide, by decide, by decide⟩

/-- C7 (amended).  An ill-formed declaration anywhere in the text makes
the whole configuration parse fail, and then `load_config` returns
`false` and leaves the environment entirely unchanged — nothing from the
configuration, not even its well-formed declarations, is added. -/
theorem c7_config_all_or_nothing (env : EmitEnv) (s : Str)
    (h : configParse s = none) :
    loadConfig env s = (env, false) := by
  unfold loadConfig
  rw [h]

theorem c7_config_all_or_nothing_witness :
    configParse cfgBadC7 = none ∧
    loadConfig envNew cfgBadC7 = (envNew, false) :=
  ⟨by decide, c7_config_all_or_nothing envNew cfgBadC7 (by decide)⟩
